import Mathlib

/-! # User service: use-case layer and repository layer

A shallow embedding of `internal/usecases/user_interactor.go`,
`internal/repositories/user_repository.go` and `internal/db/sqlc/user.sql.go`.

Conventions of the embedding

* A Go function returning `(T, error)` is a Lean function returning the pair
  `T × Option Error` (`none` is the `nil` error); a pointer result `*T` is an
  `Option T` (`none` is `nil`).  Pointer arguments that the code dereferences
  unconditionally (`user *domain.User`) are plain values.
* Everything that touches the outside world (storage, the random source) is a
  state transformer `σ → result × σ` over a world state `σ`.
* `context.Context` is passed through unchanged by every function and is left out.
* `[]byte(s)` and `string(b)` conversions are the identity on `String`.
-/

set_option autoImplicit false

/-! ## Go values -/

/-- Go `error` values.  `errorsNew msg` is a value made by `errors.New(msg)`,
`sqlErrNoRows` is the sentinel `sql.ErrNoRows` (compared with `==` in the repository),
`library pkg msg` is any error produced inside an imported package. -/
inductive Error where
  | errorsNew (msg : String)
  | sqlErrNoRows
  | library (pkg : String) (msg : String)
  deriving DecidableEq, Repr

namespace time

/-- A `time.Time`, as an instant counted in ticks; `0` is the zero time. -/
abbrev Time := Nat

end time

namespace uuid

/-- A `uuid.UUID` (`[16]byte`), read as one number. -/
structure UUID where
  value : Nat
  deriving DecidableEq, Repr

end uuid

/-- The functions of package `github.com/google/uuid` that the repository calls.
`NewRandom` reads the random source, so it is a state transformer. -/
structure UuidLib (σ : Type) where
  Parse : String → uuid.UUID × Option Error
  NewRandom : σ → (uuid.UUID × Option Error) × σ
  String : uuid.UUID → String

namespace bcrypt

/-- The constant `bcrypt.DefaultCost`. -/
def DefaultCost : Nat := 10

end bcrypt

/-- The functions of package `golang.org/x/crypto/bcrypt` that the use-case and its
tests call.  `GenerateFromPassword` draws a salt from the random source, so it is a
state transformer; `CompareHashAndPassword hash password` returns `none` exactly when
the password verifies. -/
structure Bcrypt (σ : Type) where
  GenerateFromPassword : String → Nat → σ → (String × Option Error) × σ
  CompareHashAndPassword : String → String → Option Error

namespace sql

/-- A `sql.NullString`. -/
structure NullString where
  String : String
  Valid : Bool
  deriving DecidableEq, Repr

end sql

/-! ## `internal/domain/user.go` -/

namespace domain

/-- The domain record `domain.User`; field defaults are the Go zero values. -/
structure User where
  ID : String := ""
  Name : String := ""
  Email : String := ""
  Password : String := ""
  CreatedAt : time.Time := 0
  UpdatedAt : time.Time := 0
  deriving DecidableEq, Repr

end domain

/-! ## `internal/usecases/user_interactor.go` -/

/-- The interface `repositories.UserRepository`. -/
structure UserRepository (σ : Type) where
  CreateUser : domain.User → String → σ → (Option domain.User × Option Error) × σ
  GetUserByID : String → σ → (Option domain.User × Option Error) × σ
  ListUsers : σ → (List domain.User × Option Error) × σ
  UpdateUser : String → domain.User → Option String → σ →
    (Option domain.User × Option Error) × σ
  DeleteUser : String → σ → Option Error × σ

/-- The struct `userInteractor`: the repository it was built with, and the bcrypt
package it is linked against. -/
structure userInteractor (σ : Type) where
  userRepo : UserRepository σ
  bcrypt : Bcrypt σ

namespace userInteractor

variable {σ : Type}

/-- The method `CreateNewUser`. -/
def CreateNewUser (uc : userInteractor σ) (name email plainPassword : String) (s : σ) :
    (Option domain.User × Option Error) × σ :=
  if name = "" ∨ email = "" ∨ plainPassword = "" then
    ((none, some (Error.errorsNew "name, email, and password are required")), s)
  else
    match uc.bcrypt.GenerateFromPassword plainPassword bcrypt.DefaultCost s with
    | ((_, some err), s1) => ((none, some err), s1)
    | ((hashedPassword, none), s1) =>
      let user : domain.User := { Name := name, Email := email }
      uc.userRepo.CreateUser user hashedPassword s1

/-- The method `FindUserByID`. -/
def FindUserByID (uc : userInteractor σ) (id : String) (s : σ) :
    (Option domain.User × Option Error) × σ :=
  if id = "" then
    ((none, some (Error.errorsNew "user ID is required")), s)
  else
    uc.userRepo.GetUserByID id s

/-- The method `GetAllUsers`. -/
def GetAllUsers (uc : userInteractor σ) (s : σ) : (List domain.User × Option Error) × σ :=
  uc.userRepo.ListUsers s

/-- The method `UpdateExistingUser`.  `updateData` and `hasUpdate` are the two local
variables of the Go body, renamed at each assignment; `finish` is the code from
`if !hasUpdate` to the end, reached with the values the password block leaves. -/
def UpdateExistingUser (uc : userInteractor σ) (id : String)
    (name email plainPassword : Option String) (s : σ) :
    (Option domain.User × Option Error) × σ :=
  if id = "" then
    ((none, some (Error.errorsNew "user ID is required for update")), s)
  else
    let updateData0 : domain.User := {}
    let hasUpdate0 : Bool := false
    let updateData1 : domain.User :=
      match name with
      | some n => { updateData0 with Name := n }
      | none => updateData0
    let hasUpdate1 : Bool :=
      match name with
      | some _ => true
      | none => hasUpdate0
    let updateData2 : domain.User :=
      match email with
      | some e => { updateData1 with Email := e }
      | none => updateData1
    let hasUpdate2 : Bool :=
      match email with
      | some _ => true
      | none => hasUpdate1
    let finish (newHashedPassword : Option String) (hasUpdate : Bool) (s1 : σ) :
        (Option domain.User × Option Error) × σ :=
      if !hasUpdate then
        ((none, some (Error.errorsNew "no update data provided")), s1)
      else
        uc.userRepo.UpdateUser id updateData2 newHashedPassword s1
    match plainPassword with
    | some p =>
      if p = "" then
        ((none, some (Error.errorsNew "password cannot be updated to empty string")), s)
      else
        match uc.bcrypt.GenerateFromPassword p bcrypt.DefaultCost s with
        | ((_, some err), s1) => ((none, some err), s1)
        | ((h, none), s1) => finish (some h) true s1
    | none => finish none hasUpdate2 s

/-- The method `RemoveUser`. -/
def RemoveUser (uc : userInteractor σ) (id : String) (s : σ) : Option Error × σ :=
  if id = "" then
    (some (Error.errorsNew "user ID is required"), s)
  else
    uc.userRepo.DeleteUser id s

end userInteractor

/-! ## Observing the calls a use-case makes on its repository

As the tests do with a mock, a repository is wrapped so that every call made on it is
appended to a log carried next to the world state. -/

/-- One call on a `UserRepository`, with its arguments. -/
inductive RepoCall where
  | CreateUser (user : domain.User) (hashedPassword : String)
  | GetUserByID (id : String)
  | ListUsers
  | UpdateUser (id : String) (user : domain.User) (hashedPassword : Option String)
  | DeleteUser (id : String)
  deriving DecidableEq, Repr

/-- The repository `repo`, logging each call. -/
def UserRepository.recording {σ : Type} (repo : UserRepository σ) :
    UserRepository (σ × List RepoCall) where
  CreateUser user hashedPassword st :=
    ((repo.CreateUser user hashedPassword st.1).1,
      ((repo.CreateUser user hashedPassword st.1).2,
        st.2 ++ [RepoCall.CreateUser user hashedPassword]))
  GetUserByID id st :=
    ((repo.GetUserByID id st.1).1,
      ((repo.GetUserByID id st.1).2, st.2 ++ [RepoCall.GetUserByID id]))
  ListUsers st :=
    ((repo.ListUsers st.1).1, ((repo.ListUsers st.1).2, st.2 ++ [RepoCall.ListUsers]))
  UpdateUser id user hashedPassword st :=
    ((repo.UpdateUser id user hashedPassword st.1).1,
      ((repo.UpdateUser id user hashedPassword st.1).2,
        st.2 ++ [RepoCall.UpdateUser id user hashedPassword]))
  DeleteUser id st :=
    ((repo.DeleteUser id st.1).1,
      ((repo.DeleteUser id st.1).2, st.2 ++ [RepoCall.DeleteUser id]))

/-- The bcrypt package acting on the world state and leaving a log untouched. -/
def Bcrypt.withLog {σ : Type} (L : Type) (b : Bcrypt σ) : Bcrypt (σ × L) where
  GenerateFromPassword password cost st :=
    ((b.GenerateFromPassword password cost st.1).1,
      ((b.GenerateFromPassword password cost st.1).2, st.2))
  CompareHashAndPassword := b.CompareHashAndPassword

/-- The use-case `uc` running against the logging wrapper of its repository. -/
def userInteractor.recording {σ : Type} (uc : userInteractor σ) :
    userInteractor (σ × List RepoCall) where
  userRepo := uc.userRepo.recording
  bcrypt := uc.bcrypt.withLog (List RepoCall)

/-! ## `database/sql`, as far as the generated queries use it -/

namespace sql

/-- A value bound to a placeholder or read from a column. -/
inductive Value where
  | uuid (u : uuid.UUID)
  | nullString (n : NullString)
  | time (t : time.Time)
  deriving DecidableEq, Repr

/-- A `sql.Result`. -/
structure Result where
  RowsAffected : Nat
  deriving DecidableEq, Repr

/-- A `*sql.Row`: the deferred error of the query, if any (`sql.ErrNoRows` when the
query selected nothing), and otherwise the columns of the first row. -/
structure Row where
  err : Option Error
  cols : List Value
  deriving DecidableEq, Repr

/-- A `*sql.Rows`, materialised: the rows that `Next` delivers in order, the error
that `Close` returns and the error that `Err` reports after the iteration. -/
structure Rows where
  rows : List (List Value)
  closeErr : Option Error
  iterErr : Option Error
  deriving DecidableEq, Repr

end sql

/-! ## `internal/db/sqlc/user.sql.go` -/

namespace db

/-- Modelled from the spec: the row type `db.User` of the generated `models.go`, which
is not among the sources; its fields are the six that `GetUserByID` scans and
`toDomainUser` reads, for the table `Users(id, name, email, password, created_at,
updated_at)`. -/
structure User where
  ID : uuid.UUID := ⟨0⟩
  Name : sql.NullString := ⟨"", false⟩
  Email : sql.NullString := ⟨"", false⟩
  Password : sql.NullString := ⟨"", false⟩
  CreatedAt : time.Time := 0
  Updatedat : time.Time := 0
  deriving DecidableEq, Repr

/-- The interface `DBTX` that `Queries` holds in its field `db`. -/
structure DBTX (σ : Type) where
  ExecContext : String → List sql.Value → σ → (sql.Result × Option Error) × σ
  QueryContext : String → List sql.Value → σ → (sql.Rows × Option Error) × σ
  QueryRowContext : String → List sql.Value → σ → sql.Row × σ

/-- The statement `createUser`. -/
def createUser : String :=
  "-- name: CreateUser :execresult\nINSERT INTO Users (\n  id, name, email, password\n) VALUES (\n  ?, ?, ?, ?\n)\n"

/-- The statement `deleteUser`. -/
def deleteUser : String :=
  "-- name: DeleteUser :execresult\nDELETE FROM Users\nWHERE id = ?\n"

/-- The statement `getUserByID`. -/
def getUserByID : String :=
  "-- name: GetUserByID :one\nSELECT id, name, email, password, created_at, updatedat FROM Users\nWHERE id = ? LIMIT 1\n"

/-- The statement `listUsers`. -/
def listUsers : String :=
  "-- name: ListUsers :many\nSELECT id, name, email, password, created_at, updatedat FROM Users\nORDER BY name\n"

/-- The statement `updateUser`. -/
def updateUser : String :=
  "-- name: UpdateUser :execresult\nUPDATE Users\nSET name = ?, email = ?, password = ?\nWHERE id = ?\n"

/-- The struct `CreateUserParams`. -/
structure CreateUserParams where
  ID : uuid.UUID
  Name : sql.NullString
  Email : sql.NullString
  Password : sql.NullString
  deriving DecidableEq, Repr

/-- The struct `UpdateUserParams`. -/
structure UpdateUserParams where
  Name : sql.NullString
  Email : sql.NullString
  Password : sql.NullString
  ID : uuid.UUID
  deriving DecidableEq, Repr

/-- The call `Scan(&i.ID, &i.Name, &i.Email, &i.Password, &i.CreatedAt, &i.Updatedat)`
on the columns of one row: the columns are assigned to the six fields in order; a row
of another shape is a scan error and leaves `i` as it was. -/
def scanUser (cols : List sql.Value) (i : User) : User × Option Error :=
  match cols with
  | [sql.Value.uuid id, sql.Value.nullString name, sql.Value.nullString email,
      sql.Value.nullString password, sql.Value.time createdAt, sql.Value.time updatedat] =>
    ({ ID := id, Name := name, Email := email, Password := password,
       CreatedAt := createdAt, Updatedat := updatedat }, none)
  | _ => (i, some (Error.library "database/sql" "Scan"))

/-- The method `(*sql.Row).Scan` with the six destinations of `GetUserByID`. -/
def rowScan (row : sql.Row) (i : User) : User × Option Error :=
  match row.err with
  | some err => (i, some err)
  | none => scanUser row.cols i

/-- The struct `Queries`. -/
structure Queries (σ : Type) where
  db : DBTX σ

namespace Queries

variable {σ : Type}

/-- The method `Queries.CreateUser`. -/
def CreateUser (q : Queries σ) (arg : CreateUserParams) (s : σ) :
    (sql.Result × Option Error) × σ :=
  q.db.ExecContext createUser
    [sql.Value.uuid arg.ID, sql.Value.nullString arg.Name, sql.Value.nullString arg.Email,
      sql.Value.nullString arg.Password] s

/-- The method `Queries.DeleteUser`. -/
def DeleteUser (q : Queries σ) (id : uuid.UUID) (s : σ) : (sql.Result × Option Error) × σ :=
  q.db.ExecContext deleteUser [sql.Value.uuid id] s

/-- The method `Queries.GetUserByID`. -/
def GetUserByID (q : Queries σ) (id : uuid.UUID) (s : σ) : (User × Option Error) × σ :=
  let row := (q.db.QueryRowContext getUserByID [sql.Value.uuid id] s).1
  let s1 := (q.db.QueryRowContext getUserByID [sql.Value.uuid id] s).2
  let i : User := {}
  (rowScan row i, s1)

/-- The loop `for rows.Next() { ... }` of `ListUsers`: each delivered row is scanned
into a fresh `User` and appended to `items`; a scan error ends the function. -/
def ListUsers.loop : List (List sql.Value) → List User → List User × Option Error
  | [], items => (items, none)
  | cols :: rest, items =>
    match scanUser cols {} with
    | (_, some err) => ([], some err)
    | (i, none) => ListUsers.loop rest (items ++ [i])

/-- The method `Queries.ListUsers`. -/
def ListUsers (q : Queries σ) (s : σ) : (List User × Option Error) × σ :=
  match q.db.QueryContext listUsers [] s with
  | ((_, some err), s1) => (([], some err), s1)
  | ((rows, none), s1) =>
    match ListUsers.loop rows.rows [] with
    | (_, some err) => (([], some err), s1)
    | (items, none) =>
      match rows.closeErr with
      | some err => (([], some err), s1)
      | none =>
        match rows.iterErr with
        | some err => (([], some err), s1)
        | none => ((items, none), s1)

/-- The method `Queries.UpdateUser`. -/
def UpdateUser (q : Queries σ) (arg : UpdateUserParams) (s : σ) :
    (sql.Result × Option Error) × σ :=
  q.db.ExecContext updateUser
    [sql.Value.nullString arg.Name, sql.Value.nullString arg.Email,
      sql.Value.nullString arg.Password, sql.Value.uuid arg.ID] s

end Queries

/-- Modelled from the spec: the interface `db.Querier` of the generated `querier.go`,
which is not among the sources; its methods are those of `Queries`, which `db.New`
returns where the repository expects a `Querier`. -/
structure Querier (σ : Type) where
  CreateUser : CreateUserParams → σ → (sql.Result × Option Error) × σ
  DeleteUser : uuid.UUID → σ → (sql.Result × Option Error) × σ
  GetUserByID : uuid.UUID → σ → (User × Option Error) × σ
  ListUsers : σ → (List User × Option Error) × σ
  UpdateUser : UpdateUserParams → σ → (sql.Result × Option Error) × σ

/-- The function `db.New`, seen through the `Querier` interface. -/
def New {σ : Type} (conn : DBTX σ) : Querier σ where
  CreateUser := Queries.CreateUser ⟨conn⟩
  DeleteUser := Queries.DeleteUser ⟨conn⟩
  GetUserByID := Queries.GetUserByID ⟨conn⟩
  ListUsers := Queries.ListUsers ⟨conn⟩
  UpdateUser := Queries.UpdateUser ⟨conn⟩

end db

/-! ## `internal/repositories/user_repository.go` -/

/-- The function `toDomainUser`; `uuidString` is the method `UUID.String`. -/
def toDomainUser (uuidString : uuid.UUID → String) (sqlcUser : db.User) : domain.User :=
  let domainUser0 : domain.User :=
    { ID := uuidString sqlcUser.ID
      Password := ""
      CreatedAt := sqlcUser.CreatedAt
      UpdatedAt := sqlcUser.Updatedat }
  let domainUser1 : domain.User :=
    if sqlcUser.Name.Valid then { domainUser0 with Name := sqlcUser.Name.String }
    else domainUser0
  let domainUser2 : domain.User :=
    if sqlcUser.Email.Valid then { domainUser1 with Email := sqlcUser.Email.String }
    else domainUser1
  domainUser2

/-- The function `toDomainUserSlice`. -/
def toDomainUserSlice (uuidString : uuid.UUID → String) (sqlcUsers : List db.User) :
    List domain.User :=
  sqlcUsers.map (toDomainUser uuidString)

/-- The struct `sqlcUserRepository`: its querier, and the uuid package it is linked
against (the field `dbConn` is never read and is left out). -/
structure sqlcUserRepository (σ : Type) where
  querier : db.Querier σ
  uuid : UuidLib σ

namespace sqlcUserRepository

variable {σ : Type}

/-- The method `GetUserByID`. -/
def GetUserByID (r : sqlcUserRepository σ) (id : String) (s : σ) :
    (Option domain.User × Option Error) × σ :=
  match r.uuid.Parse id with
  | (_, some err) => ((none, some err), s)
  | (userID, none) =>
    match r.querier.GetUserByID userID s with
    | ((_, some err), s1) =>
      if err = Error.sqlErrNoRows then ((none, none), s1)
      else ((none, some err), s1)
    | ((sqlcUser, none), s1) => ((some (toDomainUser r.uuid.String sqlcUser), none), s1)

/-- The method `CreateUser`. -/
def CreateUser (r : sqlcUserRepository σ) (user : domain.User) (hashedPassword : String)
    (s : σ) : (Option domain.User × Option Error) × σ :=
  match r.uuid.NewRandom s with
  | ((_, some err), s1) => ((none, some err), s1)
  | ((userID, none), s1) =>
    let params : db.CreateUserParams :=
      { ID := userID
        Name := { String := user.Name, Valid := decide (user.Name ≠ "") }
        Email := { String := user.Email, Valid := decide (user.Email ≠ "") }
        Password := { String := hashedPassword, Valid := decide (hashedPassword ≠ "") } }
    match r.querier.CreateUser params s1 with
    | ((_, some err), s2) => ((none, some err), s2)
    | ((_, none), s2) => r.GetUserByID (r.uuid.String userID) s2

/-- The method `ListUsers`. -/
def ListUsers (r : sqlcUserRepository σ) (s : σ) : (List domain.User × Option Error) × σ :=
  match r.querier.ListUsers s with
  | ((_, some err), s1) => (([], some err), s1)
  | ((sqlcUsers, none), s1) => ((toDomainUserSlice r.uuid.String sqlcUsers, none), s1)

/-- The parameters that `UpdateUser` builds: the current row, overwritten by the
non-empty fields of `user` and by the new password when there is one. -/
def updateParams (userID : uuid.UUID) (currentUser : db.User) (user : domain.User)
    (hashedPassword : Option String) : db.UpdateUserParams :=
  let params0 : db.UpdateUserParams :=
    { ID := userID
      Name := currentUser.Name
      Email := currentUser.Email
      Password := currentUser.Password }
  let params1 : db.UpdateUserParams :=
    if user.Name ≠ "" then { params0 with Name := { String := user.Name, Valid := true } }
    else params0
  let params2 : db.UpdateUserParams :=
    if user.Email ≠ "" then { params1 with Email := { String := user.Email, Valid := true } }
    else params1
  let params3 : db.UpdateUserParams :=
    match hashedPassword with
    | some h => { params2 with Password := { String := h, Valid := decide (h ≠ "") } }
    | none => params2
  params3

/-- The method `UpdateUser`. -/
def UpdateUser (r : sqlcUserRepository σ) (id : String) (user : domain.User)
    (hashedPassword : Option String) (s : σ) : (Option domain.User × Option Error) × σ :=
  match r.uuid.Parse id with
  | (_, some err) => ((none, some err), s)
  | (userID, none) =>
    match r.querier.GetUserByID userID s with
    | ((_, some err), s1) =>
      if err = Error.sqlErrNoRows then ((none, none), s1)
      else ((none, some err), s1)
    | ((currentUser, none), s1) =>
      let params := updateParams userID currentUser user hashedPassword
      match r.querier.UpdateUser params s1 with
      | ((_, some err), s2) => ((none, some err), s2)
      | ((_, none), s2) => r.GetUserByID id s2

/-- The method `DeleteUser`. -/
def DeleteUser (r : sqlcUserRepository σ) (id : String) (s : σ) : Option Error × σ :=
  match r.uuid.Parse id with
  | (_, some err) => (some err, s)
  | (userID, none) =>
    ((r.querier.DeleteUser userID s).1.2, (r.querier.DeleteUser userID s).2)

/-- The repository seen through the interface `UserRepository`. -/
def toUserRepository (r : sqlcUserRepository σ) : UserRepository σ where
  CreateUser := r.CreateUser
  GetUserByID := r.GetUserByID
  ListUsers := r.ListUsers
  UpdateUser := r.UpdateUser
  DeleteUser := r.DeleteUser

end sqlcUserRepository

/-- The function `NewUserRepository`, given the uuid package to link against. -/
def NewUserRepository {σ : Type} (conn : db.DBTX σ) (uuidLib : UuidLib σ) :
    UserRepository σ :=
  sqlcUserRepository.toUserRepository { querier := db.New conn, uuid := uuidLib }

/-- The function `NewUserInteractor`, given the bcrypt package to link against. -/
def NewUserInteractor {σ : Type} (repo : UserRepository σ) (bcryptLib : Bcrypt σ) :
    userInteractor σ :=
  { userRepo := repo, bcrypt := bcryptLib }

/-! ## Observing the calls a repository makes on its querier -/

namespace db

/-- One call on a `Querier`, with its arguments. -/
inductive QuerierCall where
  | CreateUser (arg : CreateUserParams)
  | DeleteUser (id : uuid.UUID)
  | GetUserByID (id : uuid.UUID)
  | ListUsers
  | UpdateUser (arg : UpdateUserParams)
  deriving DecidableEq, Repr

/-- The querier `q`, logging each call. -/
def Querier.recording {σ : Type} (q : Querier σ) : Querier (σ × List QuerierCall) where
  CreateUser arg st :=
    ((q.CreateUser arg st.1).1, ((q.CreateUser arg st.1).2, st.2 ++ [QuerierCall.CreateUser arg]))
  DeleteUser id st :=
    ((q.DeleteUser id st.1).1, ((q.DeleteUser id st.1).2, st.2 ++ [QuerierCall.DeleteUser id]))
  GetUserByID id st :=
    ((q.GetUserByID id st.1).1, ((q.GetUserByID id st.1).2, st.2 ++ [QuerierCall.GetUserByID id]))
  ListUsers st :=
    ((q.ListUsers st.1).1, ((q.ListUsers st.1).2, st.2 ++ [QuerierCall.ListUsers]))
  UpdateUser arg st :=
    ((q.UpdateUser arg st.1).1, ((q.UpdateUser arg st.1).2, st.2 ++ [QuerierCall.UpdateUser arg]))

end db

/-- The uuid package acting on the world state and leaving a log untouched. -/
def UuidLib.withLog {σ : Type} (L : Type) (u : UuidLib σ) : UuidLib (σ × L) where
  Parse := u.Parse
  NewRandom st := ((u.NewRandom st.1).1, ((u.NewRandom st.1).2, st.2))
  String := u.String

/-- The repository `r` running against the logging wrapper of its querier. -/
def sqlcUserRepository.recording {σ : Type} (r : sqlcUserRepository σ) :
    sqlcUserRepository (σ × List db.QuerierCall) where
  querier := r.querier.recording
  uuid := r.uuid.withLog (List db.QuerierCall)

/-! ## A reference world

A small executable world on which the embedding can be run: a table `Users` keyed by
`id`, a storage clock, and a counter standing for the random source.  It implements
`DBTX` for the five statements of `user.sql.go`, and has stand-ins for the uuid and
bcrypt packages that keep their interfaces and contracts. -/

/-- A row of the table `Users(id, name, email, password, created_at, updatedat)`; a
nullable column holds `none` for `NULL`. -/
structure Row where
  id : uuid.UUID
  name : Option String
  email : Option String
  password : Option String
  created_at : time.Time
  updatedat : time.Time
  deriving DecidableEq, Repr

/-- The world state: the rows of `Users` in insertion order, the storage clock, and
the state of the random source. -/
structure World where
  users : List Row
  clock : time.Time
  entropy : Nat
  deriving DecidableEq, Repr

namespace World

/-- What the driver stores for a `NullString` argument: `NULL` when it is not valid. -/
def toColumn (n : sql.NullString) : Option String :=
  if n.Valid then some n.String else none

/-- What the driver reads from a nullable column into a `NullString`. -/
def ofColumn (c : Option String) : sql.NullString :=
  match c with
  | some v => ⟨v, true⟩
  | none => ⟨"", false⟩

/-- The columns `id, name, email, password, created_at, updatedat` of a row. -/
def columns (u : Row) : List sql.Value :=
  [sql.Value.uuid u.id, sql.Value.nullString (ofColumn u.name),
    sql.Value.nullString (ofColumn u.email), sql.Value.nullString (ofColumn u.password),
    sql.Value.time u.created_at, sql.Value.time u.updatedat]

/-- The row as `Scan` delivers it into a `db.User`. -/
def toUser (u : Row) : db.User :=
  { ID := u.id, Name := ofColumn u.name, Email := ofColumn u.email,
    Password := ofColumn u.password, CreatedAt := u.created_at, Updatedat := u.updatedat }

/-- The order of `ORDER BY name`: `NULL` first, then by string comparison. -/
def nameLE (a b : Row) : Bool :=
  match a.name, b.name with
  | none, _ => true
  | some _, none => false
  | some x, some y => decide (x ≤ y)

/-- The statements that change the table. -/
def exec (query : String) (args : List sql.Value) (w : World) :
    (sql.Result × Option Error) × World :=
  if query = db.createUser then
    match args with
    | [sql.Value.uuid id, sql.Value.nullString name, sql.Value.nullString email,
        sql.Value.nullString password] =>
      if w.users.any (fun u => decide (u.id = id)) then
        ((⟨0⟩, some (Error.library "driver" "duplicate entry for key PRIMARY")), w)
      else
        ((⟨1⟩, none),
          { w with
            users := w.users ++
              [{ id := id, name := toColumn name, email := toColumn email,
                 password := toColumn password, created_at := w.clock,
                 updatedat := w.clock }]
            clock := w.clock + 1 })
    | _ => ((⟨0⟩, some (Error.library "driver" "wrong arguments")), w)
  else if query = db.deleteUser then
    match args with
    | [sql.Value.uuid id] =>
      ((⟨(w.users.filter (fun u => decide (u.id = id))).length⟩, none),
        { w with users := w.users.filter (fun u => !decide (u.id = id)) })
    | _ => ((⟨0⟩, some (Error.library "driver" "wrong arguments")), w)
  else if query = db.updateUser then
    match args with
    | [sql.Value.nullString name, sql.Value.nullString email, sql.Value.nullString password,
        sql.Value.uuid id] =>
      ((⟨(w.users.filter (fun u => decide (u.id = id))).length⟩, none),
        { w with
          users := w.users.map (fun u =>
            if u.id = id then
              { u with name := toColumn name, email := toColumn email,
                       password := toColumn password, updatedat := w.clock }
            else u)
          clock := w.clock + 1 })
    | _ => ((⟨0⟩, some (Error.library "driver" "wrong arguments")), w)
  else
    ((⟨0⟩, some (Error.library "driver" "unknown statement")), w)

/-- The statement that selects one row. -/
def queryRow (query : String) (args : List sql.Value) (w : World) : sql.Row × World :=
  if query = db.getUserByID then
    match args with
    | [sql.Value.uuid id] =>
      match w.users.find? (fun u => decide (u.id = id)) with
      | some u => (⟨none, columns u⟩, w)
      | none => (⟨some Error.sqlErrNoRows, []⟩, w)
    | _ => (⟨some (Error.library "driver" "wrong arguments"), []⟩, w)
  else
    (⟨some (Error.library "driver" "unknown statement"), []⟩, w)

/-- The statement that selects all rows. -/
def query (query : String) (args : List sql.Value) (w : World) :
    (sql.Rows × Option Error) × World :=
  if query = db.listUsers then
    match args with
    | [] => ((⟨(w.users.insertionSort (fun a b => nameLE a b = true)).map columns, none, none⟩,
              none), w)
    | _ => ((⟨[], none, none⟩, some (Error.library "driver" "wrong arguments")), w)
  else
    ((⟨[], none, none⟩, some (Error.library "driver" "unknown statement")), w)

/-- The connection to the reference storage. -/
def conn : db.DBTX World where
  ExecContext := exec
  QueryContext := query
  QueryRowContext := queryRow

/-- The value of a hexadecimal digit. -/
def hexValue (c : Char) : Option Nat :=
  if 48 ≤ c.toNat ∧ c.toNat ≤ 57 then some (c.toNat - 48)
  else if 97 ≤ c.toNat ∧ c.toNat ≤ 102 then some (c.toNat - 87)
  else if 65 ≤ c.toNat ∧ c.toNat ≤ 70 then some (c.toNat - 55)
  else none

/-- The number written by a list of hexadecimal digits, after `acc`. -/
def hexNumber : List Char → Nat → Option Nat
  | [], acc => some acc
  | c :: cs, acc =>
    match hexValue c with
    | some d => hexNumber cs (16 * acc + d)
    | none => none

/-- The lower-case hexadecimal digit of a number below 16. -/
def hexDigit (d : Nat) : Char :=
  if d < 10 then Char.ofNat (48 + d) else Char.ofNat (87 + d)

/-- The `n` lowest hexadecimal digits of `v`, most significant first. -/
def hexDigits : Nat → Nat → List Char
  | 0, _ => []
  | n + 1, v => hexDigits n (v / 16) ++ [hexDigit (v % 16)]

/-- A stand-in for `uuid.Parse`: it accepts the canonical form
`xxxxxxxx-xxxx-xxxx-xxxx-xxxxxxxxxxxx` and nothing else. -/
def uuidParse (s : String) : uuid.UUID × Option Error :=
  let cs := s.data
  if cs.length = 36 ∧ cs.get? 8 = some '-' ∧ cs.get? 13 = some '-' ∧ cs.get? 18 = some '-'
      ∧ cs.get? 23 = some '-' then
    match hexNumber (cs.take 8 ++ (cs.drop 9).take 4 ++ (cs.drop 14).take 4
        ++ (cs.drop 19).take 4 ++ cs.drop 24) 0 with
    | some v => (⟨v⟩, none)
    | none => (⟨0⟩, some (Error.library "uuid" "invalid UUID format"))
  else
    (⟨0⟩, some (Error.library "uuid" "invalid UUID length"))

/-- A stand-in for `UUID.String`: the canonical lower-case form. -/
def uuidString (u : uuid.UUID) : String :=
  let d := hexDigits 32 u.value
  String.mk (d.take 8 ++ ['-'] ++ (d.drop 8).take 4 ++ ['-'] ++ (d.drop 12).take 4 ++ ['-']
    ++ (d.drop 16).take 4 ++ ['-'] ++ d.drop 20)

/-- The stand-in uuid package: `NewRandom` turns the state of the random source into a
UUID and advances it. -/
def uuidLib : UuidLib World where
  Parse := uuidParse
  NewRandom w := ((⟨w.entropy % 2 ^ 128⟩, none), { w with entropy := w.entropy + 1 })
  String := uuidString

/-- The stand-in hash of `password` under the salt drawn from `entropy`: the version
and cost header, 22 salt characters, then the digest, for which the password itself
stands. -/
def hashed (cost entropy : Nat) (password : String) : String :=
  String.mk ("$2a$".data ++ [Char.ofNat (48 + cost / 10 % 10), Char.ofNat (48 + cost % 10), '$']
    ++ hexDigits 22 entropy ++ password.data)

/-- The stand-in bcrypt package.  As in the package, a password longer than 72 bytes
and a cost above 31 are refused, and a hash verifies exactly against the password it
was made from; the digest itself is not computed. -/
def bcryptLib : Bcrypt World where
  GenerateFromPassword password cost w :=
    if 72 < password.utf8ByteSize then
      (("", some (Error.library "bcrypt" "password length exceeds 72 bytes")), w)
    else if 31 < cost then
      (("", some (Error.library "bcrypt" "cost is outside allowed range")), w)
    else
      ((hashed cost w.entropy password, none), { w with entropy := w.entropy + 1 })
  CompareHashAndPassword hash password :=
    if hash.data.length < 29 then
      some (Error.library "bcrypt" "hashedSecret too short to be a bcrypted password")
    else if hash.data.take 4 = "$2a$".data ∧ hash.data.drop 29 = password.data then none
    else some (Error.library "bcrypt" "hashedPassword is not the hash of the given password")

/-- The repository over the reference storage, as `NewUserRepository` builds it. -/
def repository : sqlcUserRepository World where
  querier := db.New conn
  uuid := uuidLib

/-- The use-case over that repository, as `NewUserInteractor` builds it. -/
def interactor : userInteractor World :=
  NewUserInteractor repository.toUserRepository bcryptLib

/-- The empty world. -/
def empty : World := { users := [], clock := 1, entropy := 0 }

/-- A world with one user, with the id `00000000-0000-0000-0000-000000000001`. -/
def sample : World :=
  { users :=
      [{ id := ⟨1⟩, name := some "n", email := some "e@x.com",
         password := some (hashed 10 0 "p"), created_at := 1, updatedat := 1 }]
    clock := 2
    entropy := 2 }

/-- A world with three users, stored out of name order, one of them without a name. -/
def unsorted : World :=
  { users :=
      [{ id := ⟨1⟩, name := some "bob", email := some "bob@x.com",
         password := some (hashed 10 0 "p"), created_at := 1, updatedat := 1 },
       { id := ⟨2⟩, name := none, email := some "nobody@x.com",
         password := some (hashed 10 1 "q"), created_at := 2, updatedat := 2 },
       { id := ⟨3⟩, name := some "alice", email := some "alice@x.com",
         password := some (hashed 10 2 "r"), created_at := 3, updatedat := 3 }]
    clock := 4
    entropy := 6 }

end World

/-! ## Contracts of the imported packages -/

/-- The contract of `bcrypt`: a hash that `GenerateFromPassword` returns without error
verifies against the password it was made from, and is not that password. -/
def Bcrypt.Sound {σ : Type} (b : Bcrypt σ) : Prop :=
  ∀ (password : String) (cost : Nat) (s : σ) (hash : String) (s1 : σ),
    b.GenerateFromPassword password cost s = ((hash, none), s1) →
      b.CompareHashAndPassword hash password = none ∧ hash ≠ password

/-! ## Theorems -/

section helpers

/-- The stand-in hash is 29 characters longer than the password. -/
theorem World.hashed_length (cost entropy : Nat) (password : String) :
    (World.hashed cost entropy password).data.length = 29 + password.data.length := by
  have h22 : ∀ n v, (World.hexDigits n v).length = n := by
    intro n
    induction n with
    | zero => intro v; rfl
    | succ k ih => intro v; simp [World.hexDigits, ih]
  simp [World.hashed, h22]
  omega

/-- The stand-in bcrypt package meets the contract of `bcrypt`. -/
theorem World.bcryptLib_sound : World.bcryptLib.Sound := by
  intro password cost s hash s1 h
  simp only [World.bcryptLib] at h
  split at h
  · simp at h
  · split at h
    · simp at h
    · simp only [Prod.mk.injEq] at h
      obtain ⟨⟨hh, -⟩, -⟩ := h
      subst hh
      have hlen := World.hashed_length cost s.entropy password
      refine ⟨?_, ?_⟩
      · have hd : (World.hashed cost s.entropy password).data.drop 29 = password.data := by
          have h22 : ∀ n v, (World.hexDigits n v).length = n := by
            intro n
            induction n with
            | zero => intro v; rfl
            | succ k ih => intro v; simp [World.hexDigits, ih]
          simp [World.hashed, List.drop_append_eq_append_drop, h22]
        have ht : (World.hashed cost s.entropy password).data.take 4 = "$2a$".data := by
          simp [World.hashed]
        simp only [World.bcryptLib]
        rw [if_neg (by omega), if_pos ⟨ht, hd⟩]
      · intro heq
        rw [heq] at hlen
        omega

end helpers

/-- C1. `CreateNewUser` with an empty name, email or password returns no user and the
error "name, email, and password are required"; the repository is not called (the log
of repository calls and the world state are unchanged). -/
theorem createNewUser_missing_field {σ : Type} (uc : userInteractor σ)
    (name email plainPassword : String) (s : σ) (log : List RepoCall)
    (h : name = "" ∨ email = "" ∨ plainPassword = "") :
    uc.recording.CreateNewUser name email plainPassword (s, log) =
      ((none, some (Error.errorsNew "name, email, and password are required")), (s, log)) := by
  unfold userInteractor.CreateNewUser
  rw [if_pos h]

/-- Witness of C1: an empty name on the reference world. -/
theorem createNewUser_missing_field_witness :
    (("" : String) = "" ∨ ("test@example.com" : String) = "" ∨ ("password123" : String) = "") ∧
    World.interactor.recording.CreateNewUser "" "test@example.com" "password123"
        (World.empty, []) =
      ((none, some (Error.errorsNew "name, email, and password are required")),
        (World.empty, [])) :=
  ⟨by decide, createNewUser_missing_field World.interactor "" "test@example.com" "password123"
    World.empty [] (by decide)⟩

/-- C2. For non-empty name, email and password whose hashing succeeds with hash `hash`,
`CreateNewUser` calls the repository's `CreateUser` exactly once, with the record
`{Name: name, Email: email}` and with `hash`, and returns what that call returned; under
the contract of bcrypt, `hash` verifies against the password and is not the password. -/
theorem createNewUser_delegates {σ : Type} (uc : userInteractor σ)
    (name email plainPassword : String) (s : σ) (log : List RepoCall) (hash : String) (s1 : σ)
    (hname : name ≠ "") (hemail : email ≠ "") (hpassword : plainPassword ≠ "")
    (hgen : uc.bcrypt.GenerateFromPassword plainPassword bcrypt.DefaultCost s =
      ((hash, none), s1))
    (hsound : uc.bcrypt.Sound) :
    uc.recording.CreateNewUser name email plainPassword (s, log) =
      ((uc.userRepo.CreateUser { Name := name, Email := email } hash s1).1,
        ((uc.userRepo.CreateUser { Name := name, Email := email } hash s1).2,
          log ++ [RepoCall.CreateUser { Name := name, Email := email } hash]))
    ∧ uc.bcrypt.CompareHashAndPassword hash plainPassword = none
    ∧ hash ≠ plainPassword := by
  refine ⟨?_, hsound plainPassword bcrypt.DefaultCost s hash s1 hgen⟩
  unfold userInteractor.CreateNewUser
  rw [if_neg (by simp [hname, hemail, hpassword])]
  simp [userInteractor.recording, Bcrypt.withLog, UserRepository.recording, hgen]

/-- Witness of C2: the inputs of `TestUserInteractor_CreateNewUser_Success` on the
reference world. -/
theorem createNewUser_delegates_witness :
    World.interactor.recording.CreateNewUser "Test User" "test@example.com" "password123"
        (World.empty, []) =
      ((World.interactor.userRepo.CreateUser { Name := "Test User", Email := "test@example.com" }
          (World.hashed 10 0 "password123") { World.empty with entropy := 1 }).1,
        ((World.interactor.userRepo.CreateUser
            { Name := "Test User", Email := "test@example.com" }
            (World.hashed 10 0 "password123") { World.empty with entropy := 1 }).2,
          [] ++ [RepoCall.CreateUser { Name := "Test User", Email := "test@example.com" }
            (World.hashed 10 0 "password123")]))
    ∧ World.interactor.bcrypt.CompareHashAndPassword (World.hashed 10 0 "password123")
        "password123" = none
    ∧ World.hashed 10 0 "password123" ≠ "password123" :=
  createNewUser_delegates World.interactor "Test User" "test@example.com" "password123"
    World.empty [] (World.hashed 10 0 "password123") { World.empty with entropy := 1 }
    (by decide) (by decide) (by decide) (by decide) World.bcryptLib_sound

section helpers

/-- The record that `toDomainUser` builds has an empty `Password`. -/
theorem toDomainUser_Password (uuidString : uuid.UUID → String) (sqlcUser : db.User) :
    (toDomainUser uuidString sqlcUser).Password = "" := by
  unfold toDomainUser
  by_cases hn : sqlcUser.Name.Valid = true <;> by_cases he : sqlcUser.Email.Valid = true <;>
    simp [hn, he]

/-- A record that the repository's `GetUserByID` returns has an empty `Password`. -/
theorem sqlcUserRepository.GetUserByID_Password {σ : Type} (r : sqlcUserRepository σ)
    (id : String) (s : σ) (u : domain.User)
    (h : (r.GetUserByID id s).1.1 = some u) : u.Password = "" := by
  unfold sqlcUserRepository.GetUserByID at h
  split at h
  · simp at h
  · split at h
    · split at h <;> simp at h
    · simp only [Option.some.injEq] at h
      rw [← h]
      exact toDomainUser_Password _ _

/-- The logging repository's `GetUserByID` only appends to the log. -/
theorem sqlcUserRepository.recording_GetUserByID_log {σ : Type} (r : sqlcUserRepository σ)
    (id : String) (s : σ) (log : List db.QuerierCall) :
    ∃ l, (r.recording.GetUserByID id (s, log)).2.2 = log ++ l := by
  unfold sqlcUserRepository.GetUserByID
  split
  · exact ⟨[], by simp⟩
  · rename_i userID _
    refine ⟨[db.QuerierCall.GetUserByID userID], ?_⟩
    split
    · rename_i h
      simp only [sqlcUserRepository.recording, db.Querier.recording, Prod.mk.injEq] at h
      split <;> simp [← h.2]
    · rename_i h
      simp only [sqlcUserRepository.recording, db.Querier.recording, Prod.mk.injEq] at h
      simp [← h.2]

end helpers

/-- C3, counterexample. On the reference world `CreateNewUser "n" "e@x.com" "p"`
succeeds, and the record it returns has the empty string as `Password`, which does not
verify against the plaintext `"p"`. -/
theorem createNewUser_returned_record_counterexample :
    ∃ u : domain.User,
      (World.interactor.CreateNewUser "n" "e@x.com" "p" World.empty).1 = (some u, none)
      ∧ u.Password = ""
      ∧ World.bcryptLib.CompareHashAndPassword u.Password "p" ≠ none :=
  ⟨{ ID := "00000000-0000-0000-0000-000000000001", Name := "n", Email := "e@x.com",
     CreatedAt := 1, UpdatedAt := 1 }, by decide, by decide, by decide⟩

/-- C3, amended. For non-empty name, email and password whose hashing succeeds with
hash `hash`, and a generated id `userID`, the first statement that `CreateNewUser` sends
to storage through the repository's `CreateUser` is the insert of the row
`(userID, name, email, hash)`; under the contract of bcrypt that stored hash verifies
against the plaintext and is not the plaintext; and any record returned has an empty
`Password`. -/
theorem createNewUser_stores_hash {σ : Type} (r : sqlcUserRepository σ) (b : Bcrypt σ)
    (name email plainPassword : String) (s : σ) (hash : String) (s1 : σ)
    (userID : uuid.UUID) (s2 : σ)
    (hname : name ≠ "") (hemail : email ≠ "") (hpassword : plainPassword ≠ "")
    (hgen : b.GenerateFromPassword plainPassword bcrypt.DefaultCost s = ((hash, none), s1))
    (hnew : r.uuid.NewRandom s1 = ((userID, none), s2))
    (hsound : b.Sound) :
    ((NewUserInteractor r.recording.toUserRepository (b.withLog (List db.QuerierCall))).CreateNewUser
        name email plainPassword (s, [])).2.2.head? =
      some (db.QuerierCall.CreateUser
        { ID := userID, Name := ⟨name, true⟩, Email := ⟨email, true⟩,
          Password := ⟨hash, decide (hash ≠ "")⟩ })
    ∧ b.CompareHashAndPassword hash plainPassword = none
    ∧ hash ≠ plainPassword
    ∧ ∀ u : domain.User,
        ((NewUserInteractor r.recording.toUserRepository
            (b.withLog (List db.QuerierCall))).CreateNewUser
          name email plainPassword (s, [])).1.1 = some u → u.Password = "" := by
  have hs := hsound plainPassword bcrypt.DefaultCost s hash s1 hgen
  have hrun : (NewUserInteractor r.recording.toUserRepository
        (b.withLog (List db.QuerierCall))).CreateNewUser name email plainPassword (s, []) =
      r.recording.CreateUser { Name := name, Email := email } hash (s1, []) := by
    unfold userInteractor.CreateNewUser
    rw [if_neg (by simp [hname, hemail, hpassword])]
    simp [NewUserInteractor, Bcrypt.withLog, sqlcUserRepository.toUserRepository, hgen]
  rw [hrun]
  refine ⟨?_, hs.1, hs.2, ?_⟩
  · unfold sqlcUserRepository.CreateUser
    simp only [sqlcUserRepository.recording, UuidLib.withLog, hnew, db.Querier.recording]
    split
    · rename_i h
      simp only [Prod.mk.injEq] at h
      simp [← h.2, hname, hemail]
    · rename_i h
      simp only [Prod.mk.injEq] at h
      obtain ⟨l, hl⟩ := sqlcUserRepository.recording_GetUserByID_log r
        (r.uuid.String userID) (r.querier.CreateUser
          { ID := userID, Name := ⟨name, decide (name ≠ "")⟩,
            Email := ⟨email, decide (email ≠ "")⟩,
            Password := ⟨hash, decide (hash ≠ "")⟩ } s2).2
        ([] ++ [db.QuerierCall.CreateUser
          { ID := userID, Name := ⟨name, decide (name ≠ "")⟩,
            Email := ⟨email, decide (email ≠ "")⟩,
            Password := ⟨hash, decide (hash ≠ "")⟩ }])
      rw [← h.2]
      simp only [sqlcUserRepository.recording, UuidLib.withLog, db.Querier.recording] at hl
      rw [hl]
      simp [hname, hemail]
  · intro u hu
    unfold sqlcUserRepository.CreateUser at hu
    split at hu
    · simp at hu
    · dsimp only at hu
      split at hu
      · simp at hu
      · exact sqlcUserRepository.GetUserByID_Password _ _ _ u hu

/-- Witness of C3, amended: `CreateNewUser "n" "e@x.com" "p"` on the empty reference
world. -/
theorem createNewUser_stores_hash_witness :
    ((NewUserInteractor World.repository.recording.toUserRepository
        (World.bcryptLib.withLog (List db.QuerierCall))).CreateNewUser
        "n" "e@x.com" "p" (World.empty, [])).2.2.head? =
      some (db.QuerierCall.CreateUser
        { ID := ⟨1⟩, Name := ⟨"n", true⟩, Email := ⟨"e@x.com", true⟩,
          Password := ⟨World.hashed 10 0 "p", decide (World.hashed 10 0 "p" ≠ "")⟩ })
    ∧ World.bcryptLib.CompareHashAndPassword (World.hashed 10 0 "p") "p" = none
    ∧ World.hashed 10 0 "p" ≠ "p"
    ∧ ∀ u : domain.User,
        ((NewUserInteractor World.repository.recording.toUserRepository
            (World.bcryptLib.withLog (List db.QuerierCall))).CreateNewUser
          "n" "e@x.com" "p" (World.empty, [])).1.1 = some u → u.Password = "" :=
  createNewUser_stores_hash World.repository World.bcryptLib "n" "e@x.com" "p" World.empty
    (World.hashed 10 0 "p") { World.empty with entropy := 1 } ⟨1⟩
    { World.empty with entropy := 2 }
    (by decide) (by decide) (by decide) (by decide) (by decide) World.bcryptLib_sound

/-- C4. For a non-empty id, `UpdateExistingUser` with name, email and password all absent
returns no user and the error "no update data provided" without calling the repository;
conversely, when neither the repository nor bcrypt produces an error with that message,
the call ends with that error only if all three fields are absent. -/
theorem updateExistingUser_no_data {σ : Type} (uc : userInteractor σ) (id : String) (s : σ)
    (log : List RepoCall) (hid : id ≠ "") :
    uc.recording.UpdateExistingUser id none none none (s, log) =
      ((none, some (Error.errorsNew "no update data provided")), (s, log))
    ∧ ∀ name email plainPassword : Option String,
        (∀ (u : domain.User) (hp : Option String) (s1 : σ),
          (uc.userRepo.UpdateUser id u hp s1).1.2 ≠
            some (Error.errorsNew "no update data provided")) →
        (∀ (p : String) (s1 : σ),
          (uc.bcrypt.GenerateFromPassword p bcrypt.DefaultCost s1).1.2 ≠
            some (Error.errorsNew "no update data provided")) →
        (uc.recording.UpdateExistingUser id name email plainPassword (s, log)).1.2 =
            some (Error.errorsNew "no update data provided") →
        name = none ∧ email = none ∧ plainPassword = none := by
  refine ⟨?_, ?_⟩
  · unfold userInteractor.UpdateExistingUser
    rw [if_neg hid]
    rfl
  · intro name email plainPassword hrepo hbcrypt h
    unfold userInteractor.UpdateExistingUser at h
    rw [if_neg hid] at h
    cases plainPassword with
    | some p =>
      exfalso
      dsimp only at h
      split at h
      · simp at h
      · have hb := hbcrypt p s
        cases hg : uc.bcrypt.GenerateFromPassword p bcrypt.DefaultCost s with
        | mk res s1 =>
          obtain ⟨hh, e⟩ := res
          rw [hg] at hb
          cases e with
          | some err =>
            simp only [userInteractor.recording, Bcrypt.withLog, hg] at h
            exact hb h
          | none =>
            simp only [userInteractor.recording, Bcrypt.withLog, hg] at h
            exact hrepo _ _ _ h
    | none =>
      cases name with
      | some n =>
        exfalso
        cases email <;> exact hrepo _ _ _ h
      | none =>
        cases email with
        | some e =>
          exfalso
          exact hrepo _ _ _ h
        | none => exact ⟨rfl, rfl, rfl⟩

/-- C5. For a non-empty id and any name and email, `UpdateExistingUser` with a password
that is present and empty returns no user and the error "password cannot be updated to
empty string" without calling the repository. -/
theorem updateExistingUser_empty_password {σ : Type} (uc : userInteractor σ) (id : String)
    (name email : Option String) (s : σ) (log : List RepoCall) (hid : id ≠ "") :
    uc.recording.UpdateExistingUser id name email (some "") (s, log) =
      ((none, some (Error.errorsNew "password cannot be updated to empty string")),
        (s, log)) := by
  unfold userInteractor.UpdateExistingUser
  rw [if_neg hid]
  rfl

/-- C7. With the empty id, `FindUserByID` and `RemoveUser` fail with "user ID is
required" and `UpdateExistingUser` fails with "user ID is required for update", whatever
the name, email and password; none of them calls the repository. -/
theorem empty_id_rejected {σ : Type} (uc : userInteractor σ)
    (name email plainPassword : Option String) (s : σ) (log : List RepoCall) :
    uc.recording.FindUserByID "" (s, log) =
      ((none, some (Error.errorsNew "user ID is required")), (s, log))
    ∧ uc.recording.RemoveUser "" (s, log) =
      (some (Error.errorsNew "user ID is required"), (s, log))
    ∧ uc.recording.UpdateExistingUser "" name email plainPassword (s, log) =
      ((none, some (Error.errorsNew "user ID is required for update")), (s, log)) :=
  ⟨rfl, rfl, rfl⟩

/-- C8. For a non-empty id, `FindUserByID` returns the pair that the repository's
`GetUserByID` returns for that id, after exactly that one call; when the repository
reports an absent user and no error, so does `FindUserByID`. -/
theorem findUserByID_delegates {σ : Type} (uc : userInteractor σ) (id : String) (s : σ)
    (log : List RepoCall) (hid : id ≠ "") :
    uc.FindUserByID id s = uc.userRepo.GetUserByID id s
    ∧ uc.recording.FindUserByID id (s, log) =
      ((uc.userRepo.GetUserByID id s).1,
        ((uc.userRepo.GetUserByID id s).2, log ++ [RepoCall.GetUserByID id]))
    ∧ ((uc.userRepo.GetUserByID id s).1 = (none, none) →
        (uc.FindUserByID id s).1 = (none, none)) := by
  have h : uc.FindUserByID id s = uc.userRepo.GetUserByID id s := by
    unfold userInteractor.FindUserByID
    rw [if_neg hid]
  refine ⟨h, ?_, fun habs => by rw [h]; exact habs⟩
  unfold userInteractor.FindUserByID
  rw [if_neg hid]
  rfl

/-- Witness of C4: the inputs of `TestUserInteractor_UpdateExistingUser_Error_Validation_NoData`
on the reference world, and the same id with only a name. -/
theorem updateExistingUser_no_data_witness :
    ("some-id" : String) ≠ ""
    ∧ World.interactor.recording.UpdateExistingUser "some-id" none none none (World.empty, []) =
      ((none, some (Error.errorsNew "no update data provided")), (World.empty, []))
    ∧ (World.interactor.recording.UpdateExistingUser "some-id" (some "name") none none
        (World.empty, [])).1.2 ≠ some (Error.errorsNew "no update data provided") := by
  refine ⟨by decide,
    (updateExistingUser_no_data World.interactor "some-id" World.empty [] (by decide)).1, ?_⟩
  intro h
  have hrepo : ∀ (u : domain.User) (hp : Option String) (s1 : World),
      (World.interactor.userRepo.UpdateUser "some-id" u hp s1).1.2 ≠
        some (Error.errorsNew "no update data provided") := by
    intro u hp s1
    have hparse : World.uuidParse "some-id" =
        (⟨0⟩, some (Error.library "uuid" "invalid UUID length")) := by decide
    simp [World.interactor, NewUserInteractor, sqlcUserRepository.toUserRepository,
      sqlcUserRepository.UpdateUser, World.repository, World.uuidLib, hparse]
  have hbcrypt : ∀ (p : String) (s1 : World),
      (World.interactor.bcrypt.GenerateFromPassword p bcrypt.DefaultCost s1).1.2 ≠
        some (Error.errorsNew "no update data provided") := by
    intro p s1
    simp only [World.interactor, NewUserInteractor, World.bcryptLib]
    split
    · simp
    · split <;> simp
  have hall := (updateExistingUser_no_data World.interactor "some-id" World.empty []
    (by decide)).2 (some "name") none none hrepo hbcrypt h
  simp at hall

/-- Witness of C5: the inputs of `TestUserInteractor_UpdateExistingUser_Error_PasswordEmpty`
on the reference world, with a name supplied as well. -/
theorem updateExistingUser_empty_password_witness :
    ("user-to-update" : String) ≠ ""
    ∧ World.interactor.recording.UpdateExistingUser "user-to-update" (some "name") none (some "")
        (World.empty, []) =
      ((none, some (Error.errorsNew "password cannot be updated to empty string")),
        (World.empty, [])) :=
  ⟨by decide, updateExistingUser_empty_password World.interactor "user-to-update" (some "name")
    none World.empty [] (by decide)⟩

/-- Witness of C8: a well-formed id on the empty reference world. -/
theorem findUserByID_delegates_witness :
    ("123e4567-e89b-12d3-a456-426614174000" : String) ≠ ""
    ∧ (World.interactor.userRepo.GetUserByID "123e4567-e89b-12d3-a456-426614174000"
        World.empty).1 = (none, none)
    ∧ (World.interactor.FindUserByID "123e4567-e89b-12d3-a456-426614174000" World.empty).1 =
        (none, none) :=
  ⟨by decide, by decide,
    (findUserByID_delegates World.interactor "123e4567-e89b-12d3-a456-426614174000" World.empty []
      (by decide)).2.2 (by decide)⟩

/-- C6, counterexample. On the reference world, `UpdateExistingUser` with a non-empty id
and a non-empty password of 73 bytes as the only field ends with the error of
`GenerateFromPassword`; the repository's `UpdateUser` is not called. -/
theorem updateExistingUser_hashing_fails_counterexample :
    ("user-to-update" : String) ≠ ""
    ∧ String.mk (List.replicate 73 'a') ≠ ""
    ∧ World.interactor.recording.UpdateExistingUser "user-to-update" none none
        (some (String.mk (List.replicate 73 'a'))) (World.empty, []) =
      ((none, some (Error.library "bcrypt" "password length exceeds 72 bytes")),
        (World.empty, [])) := by
  decide

/-- C6, amended. For a non-empty id and optional name, email and password with at least
one present, the password non-empty and its hashing successful when it is present,
`UpdateExistingUser` calls the repository's `UpdateUser` exactly once, with the same id,
with the record whose `Name` and `Email` are the given ones (empty when absent) and whose
other fields are zero, and with the hash exactly when a password was given; it returns
what that call returned, and under the contract of bcrypt the hash verifies against the
password. -/
theorem updateExistingUser_delegates {σ : Type} (uc : userInteractor σ) (id : String)
    (name email plainPassword : Option String) (s : σ) (log : List RepoCall)
    (newHashedPassword : Option String) (s1 : σ)
    (hid : id ≠ "")
    (hany : name ≠ none ∨ email ≠ none ∨ plainPassword ≠ none)
    (hnone : plainPassword = none → newHashedPassword = none ∧ s1 = s)
    (hsome : ∀ p, plainPassword = some p →
      p ≠ "" ∧ ∃ h, newHashedPassword = some h ∧
        uc.bcrypt.GenerateFromPassword p bcrypt.DefaultCost s = ((h, none), s1))
    (hsound : uc.bcrypt.Sound) :
    uc.recording.UpdateExistingUser id name email plainPassword (s, log) =
      ((uc.userRepo.UpdateUser id { Name := name.getD "", Email := email.getD "" }
          newHashedPassword s1).1,
        ((uc.userRepo.UpdateUser id { Name := name.getD "", Email := email.getD "" }
            newHashedPassword s1).2,
          log ++ [RepoCall.UpdateUser id { Name := name.getD "", Email := email.getD "" }
            newHashedPassword]))
    ∧ (newHashedPassword.isSome = plainPassword.isSome)
    ∧ ∀ p h, plainPassword = some p → newHashedPassword = some h →
        uc.bcrypt.CompareHashAndPassword h p = none := by
  cases plainPassword with
  | none =>
    obtain ⟨hh, hs⟩ := hnone rfl
    subst hh hs
    refine ⟨?_, rfl, fun p h hp => by simp at hp⟩
    unfold userInteractor.UpdateExistingUser
    rw [if_neg hid]
    cases name with
    | some n => cases email <;> rfl
    | none =>
      cases email with
      | some e => rfl
      | none => simp at hany
  | some p =>
    obtain ⟨hp, h, hh, hgen⟩ := hsome p rfl
    subst hh
    refine ⟨?_, rfl, ?_⟩
    · unfold userInteractor.UpdateExistingUser
      rw [if_neg hid]
      dsimp only
      rw [if_neg hp]
      simp only [userInteractor.recording, Bcrypt.withLog, hgen]
      cases name <;> cases email <;> rfl
    · intro p1 h1 hp1 hh1
      simp only [Option.some.injEq] at hp1 hh1
      subst hp1 hh1
      exact (hsound _ bcrypt.DefaultCost s _ s1 hgen).1

/-- Witness of C6, amended: the inputs of
`TestUserInteractor_UpdateExistingUser_Success_AllFields` on the reference world. -/
theorem updateExistingUser_delegates_witness :
    World.interactor.recording.UpdateExistingUser "user-to-update" (some "Updated Name")
        (some "updated@example.com") (some "newPassword123") (World.empty, []) =
      ((World.interactor.userRepo.UpdateUser "user-to-update"
          { Name := "Updated Name", Email := "updated@example.com" }
          (some (World.hashed 10 0 "newPassword123")) { World.empty with entropy := 1 }).1,
        ((World.interactor.userRepo.UpdateUser "user-to-update"
            { Name := "Updated Name", Email := "updated@example.com" }
            (some (World.hashed 10 0 "newPassword123")) { World.empty with entropy := 1 }).2,
          [] ++ [RepoCall.UpdateUser "user-to-update"
            { Name := "Updated Name", Email := "updated@example.com" }
            (some (World.hashed 10 0 "newPassword123"))]))
    ∧ World.interactor.bcrypt.CompareHashAndPassword (World.hashed 10 0 "newPassword123")
        "newPassword123" = none := by
  have h := updateExistingUser_delegates World.interactor "user-to-update" (some "Updated Name")
    (some "updated@example.com") (some "newPassword123") World.empty []
    (some (World.hashed 10 0 "newPassword123")) { World.empty with entropy := 1 }
    (by decide) (by decide) (by intro h; cases h)
    (by
      intro p hp
      simp only [Option.some.injEq] at hp
      subst hp
      exact ⟨by decide, World.hashed 10 0 "newPassword123", rfl, by decide⟩)
    World.bcryptLib_sound
  exact ⟨h.1, h.2.2 _ _ rfl rfl⟩

/-- C9. The repository's `GetUserByID`, in each of its four cases: an id that `uuid.Parse`
rejects gives no user and the parse error, with no call on the querier; for a parsed id,
a querier result `sql.ErrNoRows` gives an absent user and no error, a row gives
`toDomainUser` of that row and no error, and any other error is returned as it is with
no user. -/
theorem getUserByID_cases {σ : Type} (r : sqlcUserRepository σ) (id : String) (s : σ)
    (log : List db.QuerierCall) :
    (∀ userID err, r.uuid.Parse id = (userID, some err) →
      r.recording.GetUserByID id (s, log) = ((none, some err), (s, log)))
    ∧ (∀ userID, r.uuid.Parse id = (userID, none) →
      (∀ row s1, r.querier.GetUserByID userID s = ((row, some Error.sqlErrNoRows), s1) →
        r.recording.GetUserByID id (s, log) =
          ((none, none), (s1, log ++ [db.QuerierCall.GetUserByID userID])))
      ∧ (∀ row s1, r.querier.GetUserByID userID s = ((row, none), s1) →
        r.recording.GetUserByID id (s, log) =
          ((some (toDomainUser r.uuid.String row), none),
            (s1, log ++ [db.QuerierCall.GetUserByID userID])))
      ∧ (∀ row err s1, r.querier.GetUserByID userID s = ((row, some err), s1) →
        err ≠ Error.sqlErrNoRows →
        r.recording.GetUserByID id (s, log) =
          ((none, some err), (s1, log ++ [db.QuerierCall.GetUserByID userID])))) := by
  refine ⟨?_, ?_⟩
  · intro userID err hparse
    simp [sqlcUserRepository.GetUserByID, sqlcUserRepository.recording, UuidLib.withLog, hparse]
  · intro userID hparse
    refine ⟨?_, ?_, ?_⟩
    · intro row s1 hq
      simp [sqlcUserRepository.GetUserByID, sqlcUserRepository.recording, UuidLib.withLog,
        db.Querier.recording, hparse, hq]
    · intro row s1 hq
      simp [sqlcUserRepository.GetUserByID, sqlcUserRepository.recording, UuidLib.withLog,
        db.Querier.recording, hparse, hq]
    · intro row err s1 hq hne
      simp [sqlcUserRepository.GetUserByID, sqlcUserRepository.recording, UuidLib.withLog,
        db.Querier.recording, hparse, hq, hne]

/-- Witness of C9 on the reference world: a malformed id, a well-formed id with no row,
and the id of the stored row. -/
theorem getUserByID_cases_witness :
    World.repository.recording.GetUserByID "not-a-uuid" (World.sample, []) =
      ((none, some (Error.library "uuid" "invalid UUID length")), (World.sample, []))
    ∧ World.repository.recording.GetUserByID "123e4567-e89b-12d3-a456-426614174000"
        (World.sample, []) =
      ((none, none),
        (World.sample, [] ++ [db.QuerierCall.GetUserByID ⟨0x123e4567e89b12d3a456426614174000⟩]))
    ∧ World.repository.recording.GetUserByID "00000000-0000-0000-0000-000000000001"
        (World.sample, []) =
      ((some { ID := "00000000-0000-0000-0000-000000000001", Name := "n", Email := "e@x.com",
               CreatedAt := 1, UpdatedAt := 1 }, none),
        (World.sample, [] ++ [db.QuerierCall.GetUserByID ⟨1⟩])) :=
  ⟨(getUserByID_cases World.repository "not-a-uuid" World.sample []).1 ⟨0⟩ _ (by decide),
    ((getUserByID_cases World.repository "123e4567-e89b-12d3-a456-426614174000" World.sample
      []).2 ⟨0x123e4567e89b12d3a456426614174000⟩ (by decide)).1 {} World.sample (by decide),
    ((getUserByID_cases World.repository "00000000-0000-0000-0000-000000000001" World.sample
      []).2 ⟨1⟩ (by decide)).2.1
        { ID := ⟨1⟩, Name := ⟨"n", true⟩, Email := ⟨"e@x.com", true⟩,
          Password := ⟨World.hashed 10 0 "p", true⟩, CreatedAt := 1, Updatedat := 1 }
        World.sample (by decide)⟩

section helpers

/-- Storing what was read from a column gives the column back. -/
theorem World.toColumn_ofColumn (c : Option String) : World.toColumn (World.ofColumn c) = c := by
  cases c <;> rfl

/-- On the reference storage, `GetUserByID` on the id of a stored row returns that row,
scanned, and leaves the world as it is. -/
theorem World.querier_GetUserByID_found (w : World) (userID : uuid.UUID) (cur : Row)
    (hfind : w.users.find? (fun u => decide (u.id = userID)) = some cur) :
    (db.New World.conn).GetUserByID userID w =
      (({ ID := cur.id, Name := World.ofColumn cur.name, Email := World.ofColumn cur.email,
          Password := World.ofColumn cur.password, CreatedAt := cur.created_at,
          Updatedat := cur.updatedat }, none), w) := by
  simp [db.New, db.Queries.GetUserByID, World.conn, World.queryRow, hfind, db.rowScan,
    db.scanUser, World.columns]

/-- On the reference storage, `UpdateUser` rewrites the three columns of the rows with
the given id, stamps them with the storage clock, and reports no error. -/
theorem World.querier_UpdateUser (w : World) (arg : db.UpdateUserParams) :
    (db.New World.conn).UpdateUser arg w =
      ((⟨(w.users.filter (fun u => decide (u.id = arg.ID))).length⟩, none),
        { w with
          users := w.users.map (fun u =>
            if u.id = arg.ID then
              { u with name := World.toColumn arg.Name, email := World.toColumn arg.Email,
                       password := World.toColumn arg.Password, updatedat := w.clock }
            else u)
          clock := w.clock + 1 }) := by
  have h1 : db.updateUser ≠ db.createUser := by decide
  have h2 : db.updateUser ≠ db.deleteUser := by decide
  simp [db.New, db.Queries.UpdateUser, World.conn, World.exec, h1, h2]

/-- On the reference storage, the repository's `GetUserByID` leaves the world as it is. -/
theorem World.repository_GetUserByID_state (id : String) (w : World) :
    (World.repository.GetUserByID id w).2 = w := by
  unfold sqlcUserRepository.GetUserByID
  split
  · rfl
  · rename_i userID _
    have hq : ((db.New World.conn).GetUserByID userID w).2 = w := by
      simp only [db.New, db.Queries.GetUserByID, World.conn, World.queryRow]
      simp only [if_true]
      split <;> rfl
    split
    · rename_i h
      have : World.repository.querier = db.New World.conn := rfl
      rw [this] at h
      rw [h] at hq
      split <;> exact hq
    · rename_i h
      have : World.repository.querier = db.New World.conn := rfl
      rw [this] at h
      rw [h] at hq
      exact hq

end helpers

/-- C10. For an id that parses to `userID` and whose current row the querier returns,
the repository's `UpdateUser` issues, after that read, one `UpdateUser` statement for
`userID` whose name is the given `Name` when it is non-empty and the current name
otherwise, whose email likewise, and whose password is the new hash when one is supplied
(as a `NullString`, valid when non-empty) and the current password otherwise; when the
statement reports no error the result is the re-read of the same id, and otherwise it is
that error.  On the reference storage the row with that id becomes that overlay of the
current row, `NULL`s included, the other rows are unchanged, and the result is the
re-read. -/
theorem updateUser_overlay {σ : Type} (r : sqlcUserRepository σ) (id : String)
    (user : domain.User) (hashedPassword : Option String) (s : σ)
    (log : List db.QuerierCall) (userID : uuid.UUID) (currentUser : db.User) (s1 : σ)
    (hparse : r.uuid.Parse id = (userID, none))
    (hcur : r.querier.GetUserByID userID s = ((currentUser, none), s1)) :
    r.recording.UpdateUser id user hashedPassword (s, log) =
      (match r.querier.UpdateUser
          { ID := userID
            Name := if user.Name ≠ "" then ⟨user.Name, true⟩ else currentUser.Name
            Email := if user.Email ≠ "" then ⟨user.Email, true⟩ else currentUser.Email
            Password :=
              match hashedPassword with
              | some h => ⟨h, decide (h ≠ "")⟩
              | none => currentUser.Password } s1 with
        | ((_, some err), s2) =>
          ((none, some err),
            (s2, log ++ [db.QuerierCall.GetUserByID userID,
              db.QuerierCall.UpdateUser
                { ID := userID
                  Name := if user.Name ≠ "" then ⟨user.Name, true⟩ else currentUser.Name
                  Email := if user.Email ≠ "" then ⟨user.Email, true⟩ else currentUser.Email
                  Password :=
                    match hashedPassword with
                    | some h => ⟨h, decide (h ≠ "")⟩
                    | none => currentUser.Password }]))
        | ((_, none), s2) =>
          r.recording.GetUserByID id
            (s2, log ++ [db.QuerierCall.GetUserByID userID,
              db.QuerierCall.UpdateUser
                { ID := userID
                  Name := if user.Name ≠ "" then ⟨user.Name, true⟩ else currentUser.Name
                  Email := if user.Email ≠ "" then ⟨user.Email, true⟩ else currentUser.Email
                  Password :=
                    match hashedPassword with
                    | some h => ⟨h, decide (h ≠ "")⟩
                    | none => currentUser.Password }]))
    ∧ ∀ (w : World) (uid : uuid.UUID) (cur : Row),
        World.uuidParse id = (uid, none) →
        w.users.find? (fun u => decide (u.id = uid)) = some cur →
        World.repository.UpdateUser id user hashedPassword w =
          World.repository.GetUserByID id
            { w with
              users := w.users.map (fun u =>
                if u.id = uid then
                  { u with
                    name := if user.Name ≠ "" then some user.Name else cur.name
                    email := if user.Email ≠ "" then some user.Email else cur.email
                    password :=
                      match hashedPassword with
                      | some h => if h ≠ "" then some h else none
                      | none => cur.password
                    updatedat := w.clock }
                else u)
              clock := w.clock + 1 } := by
  have hp : ∀ (uid : uuid.UUID) (cu : db.User),
      sqlcUserRepository.updateParams uid cu user hashedPassword =
        { ID := uid
          Name := if user.Name ≠ "" then ⟨user.Name, true⟩ else cu.Name
          Email := if user.Email ≠ "" then ⟨user.Email, true⟩ else cu.Email
          Password :=
            match hashedPassword with
            | some h => ⟨h, decide (h ≠ "")⟩
            | none => cu.Password } := by
    intro uid cu
    unfold sqlcUserRepository.updateParams
    by_cases hn : user.Name = "" <;> by_cases he : user.Email = "" <;>
      cases hashedPassword <;> simp [hn, he]
  refine ⟨?_, ?_⟩
  · unfold sqlcUserRepository.UpdateUser
    simp only [sqlcUserRepository.recording, UuidLib.withLog, db.Querier.recording, hparse,
      hcur, hp]
    generalize r.querier.UpdateUser _ s1 = x
    obtain ⟨⟨res, e⟩, s2⟩ := x
    cases e <;> simp
  · intro w uid cur hparseW hfind
    unfold sqlcUserRepository.UpdateUser
    have hP : World.repository.uuid.Parse id = (uid, none) := hparseW
    have hQ : World.repository.querier = db.New World.conn := rfl
    simp only [hP, hQ, World.querier_GetUserByID_found w uid cur hfind,
      World.querier_UpdateUser, hp]
    congr 2
    · by_cases hn : user.Name = "" <;> by_cases he : user.Email = "" <;>
        cases hashedPassword <;>
        simp only [hn, he, World.toColumn_ofColumn, ne_eq, not_true_eq_false,
          not_false_eq_true, if_true, if_false] <;>
        simp [World.toColumn]

/-- Witness of C10: a name-only update of the stored row of the reference world. -/
theorem updateUser_overlay_witness :
    World.repository.recording.UpdateUser "00000000-0000-0000-0000-000000000001"
        { Name := "Just Name Updated" } none (World.sample, []) =
      ((some { ID := "00000000-0000-0000-0000-000000000001", Name := "Just Name Updated",
               Email := "e@x.com", CreatedAt := 1, UpdatedAt := 2 }, none),
        ({ users :=
            [{ id := ⟨1⟩, name := some "Just Name Updated", email := some "e@x.com",
               password := some (World.hashed 10 0 "p"), created_at := 1, updatedat := 2 }]
           clock := 3
           entropy := 2 },
          [db.QuerierCall.GetUserByID ⟨1⟩,
            db.QuerierCall.UpdateUser
              { ID := ⟨1⟩, Name := ⟨"Just Name Updated", true⟩, Email := ⟨"e@x.com", true⟩,
                Password := ⟨World.hashed 10 0 "p", true⟩ },
            db.QuerierCall.GetUserByID ⟨1⟩]))
    ∧ World.repository.UpdateUser "00000000-0000-0000-0000-000000000001"
        { Name := "Just Name Updated" } none World.sample =
      ((some { ID := "00000000-0000-0000-0000-000000000001", Name := "Just Name Updated",
               Email := "e@x.com", CreatedAt := 1, UpdatedAt := 2 }, none),
        { users :=
            [{ id := ⟨1⟩, name := some "Just Name Updated", email := some "e@x.com",
               password := some (World.hashed 10 0 "p"), created_at := 1, updatedat := 2 }]
          clock := 3
          entropy := 2 }) :=
  ⟨((updateUser_overlay World.repository "00000000-0000-0000-0000-000000000001"
      { Name := "Just Name Updated" } none World.sample [] ⟨1⟩
      { ID := ⟨1⟩, Name := ⟨"n", true⟩, Email := ⟨"e@x.com", true⟩,
        Password := ⟨World.hashed 10 0 "p", true⟩, CreatedAt := 1, Updatedat := 1 }
      World.sample (by decide) (by decide)).1).trans (by decide),
    ((updateUser_overlay World.repository "00000000-0000-0000-0000-000000000001"
      { Name := "Just Name Updated" } none World.sample [] ⟨1⟩
      { ID := ⟨1⟩, Name := ⟨"n", true⟩, Email := ⟨"e@x.com", true⟩,
        Password := ⟨World.hashed 10 0 "p", true⟩, CreatedAt := 1, Updatedat := 1 }
      World.sample (by decide) (by decide)).2 World.sample ⟨1⟩
      { id := ⟨1⟩, name := some "n", email := some "e@x.com",
        password := some (World.hashed 10 0 "p"), created_at := 1, updatedat := 1 }
      (by decide) (by decide)).trans (by decide)⟩

section helpers

/-- On the reference storage, `GetUserByID` on an id that no row has reports
`sql.ErrNoRows` and leaves the world as it is. -/
theorem World.querier_GetUserByID_missing (w : World) (userID : uuid.UUID)
    (hfind : w.users.find? (fun u => decide (u.id = userID)) = none) :
    (db.New World.conn).GetUserByID userID w = (({}, some Error.sqlErrNoRows), w) := by
  simp [db.New, db.Queries.GetUserByID, World.conn, World.queryRow, hfind, db.rowScan]

/-- On the reference storage, `DeleteUser` removes the rows with the given id and
reports no error. -/
theorem World.querier_DeleteUser (w : World) (userID : uuid.UUID) :
    (db.New World.conn).DeleteUser userID w =
      ((⟨(w.users.filter (fun u => decide (u.id = userID))).length⟩, none),
        { w with users := w.users.filter (fun u => !decide (u.id = userID)) }) := by
  have h1 : db.deleteUser ≠ db.createUser := by decide
  simp [db.New, db.Queries.DeleteUser, World.conn, World.exec, h1]

/-- A table in which no row has the id `userID` has nothing to find under it. -/
theorem World.find_none_of_absent (users : List Row) (userID : uuid.UUID)
    (habsent : ∀ u ∈ users, u.id ≠ userID) :
    users.find? (fun u => decide (u.id = userID)) = none := by
  rw [List.find?_eq_none]
  intro u hu
  simpa using habsent u hu

/-- Removing the rows with an absent id leaves the table as it is. -/
theorem World.filter_absent (users : List Row) (userID : uuid.UUID)
    (habsent : ∀ u ∈ users, u.id ≠ userID) :
    users.filter (fun u => !decide (u.id = userID)) = users := by
  rw [List.filter_eq_self]
  intro u hu
  simpa using habsent u hu

/-- The stand-in `uuid.Parse` rejects the empty string. -/
theorem World.uuidParse_ne_empty (id : String) (userID : uuid.UUID)
    (hparse : World.uuidParse id = (userID, none)) : id ≠ "" := by
  intro h
  subst h
  have hempty : World.uuidParse "" =
      (⟨0⟩, some (Error.library "uuid" "invalid UUID length")) := by decide
  rw [hempty] at hparse
  simp at hparse

end helpers

/-- C11. The repository's `UpdateUser` sends no `UpdateUser` statement unless the id
parses and the querier returns its current row: a rejected id gives no user and the
parse error with no call on the querier; a parsed id whose read reports `sql.ErrNoRows`
gives an absent user and no error, and any other read error is returned with no user,
the read being the only call.  On the reference storage the world is unchanged in the
first two cases. -/
theorem updateUser_no_write {σ : Type} (r : sqlcUserRepository σ) (id : String)
    (user : domain.User) (hashedPassword : Option String) (s : σ)
    (log : List db.QuerierCall) :
    (∀ userID err, r.uuid.Parse id = (userID, some err) →
      r.recording.UpdateUser id user hashedPassword (s, log) = ((none, some err), (s, log)))
    ∧ (∀ userID row s1, r.uuid.Parse id = (userID, none) →
      r.querier.GetUserByID userID s = ((row, some Error.sqlErrNoRows), s1) →
      r.recording.UpdateUser id user hashedPassword (s, log) =
        ((none, none), (s1, log ++ [db.QuerierCall.GetUserByID userID])))
    ∧ (∀ userID row err s1, r.uuid.Parse id = (userID, none) →
      r.querier.GetUserByID userID s = ((row, some err), s1) → err ≠ Error.sqlErrNoRows →
      r.recording.UpdateUser id user hashedPassword (s, log) =
        ((none, some err), (s1, log ++ [db.QuerierCall.GetUserByID userID])))
    ∧ (∀ (w : World) userID err, World.uuidParse id = (userID, some err) →
      World.repository.UpdateUser id user hashedPassword w = ((none, some err), w))
    ∧ (∀ (w : World) userID, World.uuidParse id = (userID, none) →
      (∀ u ∈ w.users, u.id ≠ userID) →
      World.repository.UpdateUser id user hashedPassword w = ((none, none), w)) := by
  refine ⟨?_, ?_, ?_, ?_, ?_⟩
  · intro userID err hparse
    simp [sqlcUserRepository.UpdateUser, sqlcUserRepository.recording, UuidLib.withLog, hparse]
  · intro userID row s1 hparse hq
    simp [sqlcUserRepository.UpdateUser, sqlcUserRepository.recording, UuidLib.withLog,
      db.Querier.recording, hparse, hq]
  · intro userID row err s1 hparse hq hne
    simp [sqlcUserRepository.UpdateUser, sqlcUserRepository.recording, UuidLib.withLog,
      db.Querier.recording, hparse, hq, hne]
  · intro w userID err hparse
    have hP : World.repository.uuid.Parse id = (userID, some err) := hparse
    simp [sqlcUserRepository.UpdateUser, hP]
  · intro w userID hparse habsent
    have hP : World.repository.uuid.Parse id = (userID, none) := hparse
    have hQ : World.repository.querier = db.New World.conn := rfl
    simp [sqlcUserRepository.UpdateUser, hP, hQ,
      World.querier_GetUserByID_missing w userID (World.find_none_of_absent _ _ habsent)]

/-- Witness of C11 on the reference world: a malformed id, and a well-formed id that
no row has. -/
theorem updateUser_no_write_witness :
    World.repository.recording.UpdateUser "not-a-uuid" { Name := "x" } none (World.sample, []) =
      ((none, some (Error.library "uuid" "invalid UUID length")), (World.sample, []))
    ∧ World.repository.recording.UpdateUser "123e4567-e89b-12d3-a456-426614174000"
        { Name := "x" } none (World.sample, []) =
      ((none, none),
        (World.sample, [] ++ [db.QuerierCall.GetUserByID ⟨0x123e4567e89b12d3a456426614174000⟩]))
    ∧ World.repository.UpdateUser "123e4567-e89b-12d3-a456-426614174000" { Name := "x" } none
        World.sample = ((none, none), World.sample) :=
  ⟨(updateUser_no_write World.repository "not-a-uuid" { Name := "x" } none World.sample []).1
      ⟨0⟩ _ (by decide),
    (updateUser_no_write World.repository "123e4567-e89b-12d3-a456-426614174000" { Name := "x" }
      none World.sample []).2.1 ⟨0x123e4567e89b12d3a456426614174000⟩ {} World.sample
      (by decide) (by decide),
    (updateUser_no_write World.repository "123e4567-e89b-12d3-a456-426614174000" { Name := "x" }
      none World.sample []).2.2.2.2 World.sample ⟨0x123e4567e89b12d3a456426614174000⟩
      (by decide) (by decide)⟩

section helpers

/-- On the reference storage, the repository's `DeleteUser` on an id that parses removes
the rows with that id and returns no error. -/
theorem World.repository_DeleteUser (w : World) (id : String) (userID : uuid.UUID)
    (hparse : World.uuidParse id = (userID, none)) :
    World.repository.DeleteUser id w =
      (none, { w with users := w.users.filter (fun u => !decide (u.id = userID)) }) := by
  have hP : World.repository.uuid.Parse id = (userID, none) := hparse
  have hQ : World.repository.querier = db.New World.conn := rfl
  simp [sqlcUserRepository.DeleteUser, hP, hQ, World.querier_DeleteUser]

/-- In a table whose ids are pairwise distinct, removing the rows with the id of a row
removes that row and no other. -/
theorem World.filter_eq_erase (users : List Row) (cur : Row)
    (hkey : users.Pairwise (fun a b => a.id ≠ b.id)) (hmem : cur ∈ users) :
    users.filter (fun u => !decide (u.id = cur.id)) = users.erase cur := by
  induction users with
  | nil => simp at hmem
  | cons a l ih =>
    rw [List.pairwise_cons] at hkey
    by_cases hac : a = cur
    · subst hac
      rw [List.erase_cons_head, List.filter_cons_of_neg (by simp)]
      exact World.filter_absent l a.id (fun b hb h => hkey.1 b hb h.symm)
    · have hin : cur ∈ l := by
        rcases List.mem_cons.mp hmem with h | h
        · exact absurd h.symm hac
        · exact h
      have hid : a.id ≠ cur.id := hkey.1 cur hin
      rw [List.filter_cons_of_pos (by simpa using hid), List.erase_cons_tail (by simpa using hac),
        ih hkey.2 hin]

/-- In a table whose ids are pairwise distinct, no row that remains after erasing a row
has its id. -/
theorem World.erase_absent (users : List Row) (cur : Row)
    (hkey : users.Pairwise (fun a b => a.id ≠ b.id)) (hmem : cur ∈ users) :
    ∀ u ∈ users.erase cur, u.id ≠ cur.id := by
  rw [← World.filter_eq_erase users cur hkey hmem]
  intro u hu
  simpa using (List.mem_filter.mp hu).2

end helpers

/-- C12. The repository's `DeleteUser`: an id that `uuid.Parse` rejects gives the parse
error with no call on the querier; otherwise exactly one `DeleteUser` statement is sent for
the parsed id and its error is returned as it is.  On the reference storage that error
is `nil` whether or not a row has the id. -/
theorem deleteUser_cases {σ : Type} (r : sqlcUserRepository σ) (id : String) (s : σ)
    (log : List db.QuerierCall) :
    (∀ userID err, r.uuid.Parse id = (userID, some err) →
      r.recording.DeleteUser id (s, log) = (some err, (s, log)))
    ∧ (∀ userID, r.uuid.Parse id = (userID, none) →
      r.recording.DeleteUser id (s, log) =
        ((r.querier.DeleteUser userID s).1.2,
          ((r.querier.DeleteUser userID s).2, log ++ [db.QuerierCall.DeleteUser userID])))
    ∧ (∀ (w : World) userID, World.uuidParse id = (userID, none) →
      World.repository.DeleteUser id w =
        (none, { w with users := w.users.filter (fun u => !decide (u.id = userID)) })) := by
  refine ⟨?_, ?_, ?_⟩
  · intro userID err hparse
    simp [sqlcUserRepository.DeleteUser, sqlcUserRepository.recording, UuidLib.withLog, hparse]
  · intro userID hparse
    simp [sqlcUserRepository.DeleteUser, sqlcUserRepository.recording, UuidLib.withLog,
      db.Querier.recording, hparse]
  · intro w userID hparse
    exact World.repository_DeleteUser w id userID hparse

/-- Witness of C12 on the reference world: a malformed id, the id of the stored row, and
a well-formed id that no row has. -/
theorem deleteUser_cases_witness :
    World.repository.recording.DeleteUser "not-a-uuid" (World.sample, []) =
      (some (Error.library "uuid" "invalid UUID length"), (World.sample, []))
    ∧ World.repository.recording.DeleteUser "00000000-0000-0000-0000-000000000001"
        (World.sample, []) =
      (none, ({ World.sample with users := [] }, [db.QuerierCall.DeleteUser ⟨1⟩]))
    ∧ World.repository.DeleteUser "123e4567-e89b-12d3-a456-426614174000" World.sample =
      (none, World.sample) :=
  ⟨(deleteUser_cases World.repository "not-a-uuid" World.sample []).1 ⟨0⟩ _ (by decide),
    ((deleteUser_cases World.repository "00000000-0000-0000-0000-000000000001" World.sample
      []).2.1 ⟨1⟩ (by decide)).trans (by decide),
    ((deleteUser_cases World.repository "123e4567-e89b-12d3-a456-426614174000" World.sample
      []).2.2 World.sample ⟨0x123e4567e89b12d3a456426614174000⟩ (by decide)).trans (by decide)⟩

/-- C13, counterexample. On the reference world the id
`123e4567-e89b-12d3-a456-426614174000` is well-formed and no row has it, and `RemoveUser`
returns no error for it. -/
theorem removeUser_missing_row_counterexample :
    (World.uuidParse "123e4567-e89b-12d3-a456-426614174000").2 = none
    ∧ (∀ u ∈ World.sample.users,
        u.id ≠ (World.uuidParse "123e4567-e89b-12d3-a456-426614174000").1)
    ∧ World.interactor.RemoveUser "123e4567-e89b-12d3-a456-426614174000" World.sample =
      (none, World.sample) := by
  decide

/-- C13, amended. For a non-empty id that parses, `RemoveUser` through the repository's
`DeleteUser` returns the error of the one `DeleteUser` statement; on the reference storage,
for a well-formed id that no row has, that is no error and the table is unchanged, the
same result as for a deleted row. -/
theorem removeUser_missing_row {σ : Type} (r : sqlcUserRepository σ) (b : Bcrypt σ)
    (id : String) (userID : uuid.UUID) (s : σ)
    (hid : id ≠ "") (hparse : r.uuid.Parse id = (userID, none)) :
    (NewUserInteractor r.toUserRepository b).RemoveUser id s =
      ((r.querier.DeleteUser userID s).1.2, (r.querier.DeleteUser userID s).2)
    ∧ (∀ (w : World) (uid : uuid.UUID), World.uuidParse id = (uid, none) →
      (∀ u ∈ w.users, u.id ≠ uid) → World.interactor.RemoveUser id w = (none, w)) := by
  refine ⟨?_, ?_⟩
  · unfold userInteractor.RemoveUser
    rw [if_neg hid]
    simp [NewUserInteractor, sqlcUserRepository.toUserRepository, sqlcUserRepository.DeleteUser,
      hparse]
  · intro w uid hparseW habsent
    unfold userInteractor.RemoveUser
    rw [if_neg hid]
    have hD : World.interactor.userRepo.DeleteUser id w = World.repository.DeleteUser id w := rfl
    rw [hD, World.repository_DeleteUser w id uid hparseW, World.filter_absent _ _ habsent]

/-- Witness of C13, amended: the id of the counterexample. -/
theorem removeUser_missing_row_witness :
    World.interactor.RemoveUser "123e4567-e89b-12d3-a456-426614174000" World.sample =
      (none, World.sample) :=
  (removeUser_missing_row World.repository World.bcryptLib
    "123e4567-e89b-12d3-a456-426614174000" ⟨0x123e4567e89b12d3a456426614174000⟩ World.sample
    (by decide) (by decide)).2 World.sample ⟨0x123e4567e89b12d3a456426614174000⟩
    (by decide) (by decide)

/-- C14. On the reference storage with pairwise distinct ids, for the id of an existing
row `RemoveUser` returns no error and removes that row and no other, and `FindUserByID`
with the same id then returns an absent user and no error. -/
theorem removeUser_then_find (w : World) (id : String) (userID : uuid.UUID) (cur : Row)
    (hparse : World.uuidParse id = (userID, none))
    (hkey : w.users.Pairwise (fun a b => a.id ≠ b.id))
    (hmem : cur ∈ w.users) (hcur : cur.id = userID) :
    World.interactor.RemoveUser id w = (none, { w with users := w.users.erase cur })
    ∧ World.interactor.FindUserByID id { w with users := w.users.erase cur } =
      ((none, none), { w with users := w.users.erase cur }) := by
  have hid : id ≠ "" := World.uuidParse_ne_empty id userID hparse
  subst hcur
  refine ⟨?_, ?_⟩
  · unfold userInteractor.RemoveUser
    rw [if_neg hid]
    have hD : World.interactor.userRepo.DeleteUser id w = World.repository.DeleteUser id w := rfl
    rw [hD, World.repository_DeleteUser w id cur.id hparse, World.filter_eq_erase _ _ hkey hmem]
  · unfold userInteractor.FindUserByID
    rw [if_neg hid]
    have hG : ∀ w1, World.interactor.userRepo.GetUserByID id w1 =
        World.repository.GetUserByID id w1 := fun _ => rfl
    have hP : World.repository.uuid.Parse id = (cur.id, none) := hparse
    have hQ : World.repository.querier = db.New World.conn := rfl
    have hmiss := World.querier_GetUserByID_missing { w with users := w.users.erase cur } cur.id
      (World.find_none_of_absent (w.users.erase cur) cur.id (World.erase_absent _ _ hkey hmem))
    rw [hG]
    simp [sqlcUserRepository.GetUserByID, hP, hQ, hmiss]

/-- Witness of C14: removing the stored row of the reference world. -/
theorem removeUser_then_find_witness :
    World.interactor.RemoveUser "00000000-0000-0000-0000-000000000001" World.sample =
      (none, { World.sample with users := [] })
    ∧ World.interactor.FindUserByID "00000000-0000-0000-0000-000000000001"
        { World.sample with users := [] } = ((none, none), { World.sample with users := [] }) :=
  removeUser_then_find World.sample "00000000-0000-0000-0000-000000000001" ⟨1⟩
    { id := ⟨1⟩, name := some "n", email := some "e@x.com",
      password := some (World.hashed 10 0 "p"), created_at := 1, updatedat := 1 }
    (by decide) (by decide) (by decide) (by decide)

section helpers

/-- The loop of `Queries.ListUsers` over rows that all scan without error appends the
scanned rows, in order. -/
theorem db.Queries.ListUsers.loop_scanned (rows : List (List sql.Value)) :
    ∀ items : List db.User, (∀ cols ∈ rows, (db.scanUser cols {}).2 = none) →
      db.Queries.ListUsers.loop rows items =
        (items ++ rows.map (fun cols => (db.scanUser cols {}).1), none) := by
  induction rows with
  | nil => intro items _; simp [db.Queries.ListUsers.loop]
  | cons cols rest ih =>
    intro items hscan
    have hc : (db.scanUser cols {}).2 = none := hscan cols (List.mem_cons_self _ _)
    have hrest : ∀ c ∈ rest, (db.scanUser c {}).2 = none :=
      fun c hcmem => hscan c (List.mem_cons_of_mem _ hcmem)
    unfold db.Queries.ListUsers.loop
    split
    · rename_i h
      rw [h] at hc
      simp at hc
    · rename_i i h
      rw [ih (items ++ [i]) hrest]
      simp [h]

/-- `Queries.ListUsers` over a result set that iterates, scans and closes without error
returns the scanned rows in the order of the result set. -/
theorem db.Queries.ListUsers_scanned {σ : Type} (conn : db.DBTX σ) (s : σ) (rows : sql.Rows)
    (s1 : σ) (hq : conn.QueryContext db.listUsers [] s = ((rows, none), s1))
    (hclose : rows.closeErr = none) (hiter : rows.iterErr = none)
    (hscan : ∀ cols ∈ rows.rows, (db.scanUser cols {}).2 = none) :
    (db.New conn).ListUsers s =
      ((rows.rows.map (fun cols => (db.scanUser cols {}).1), none), s1) := by
  simp [db.New, db.Queries.ListUsers, hq, db.Queries.ListUsers.loop_scanned rows.rows [] hscan,
    hclose, hiter]

/-- Scanning the columns of a stored row gives the row. -/
theorem World.scanUser_columns (u : Row) (i : db.User) :
    db.scanUser (World.columns u) i = (World.toUser u, none) := rfl

/-- On the reference storage, `ListUsers` returns the rows sorted by name. -/
theorem World.querier_ListUsers (w : World) :
    (db.New World.conn).ListUsers w =
      (((w.users.insertionSort (fun a b => World.nameLE a b = true)).map World.toUser, none),
        w) := by
  have hq : World.conn.QueryContext db.listUsers [] w =
      ((⟨(w.users.insertionSort (fun a b => World.nameLE a b = true)).map World.columns,
          none, none⟩, none), w) := by
    simp [World.conn, World.query]
  rw [db.Queries.ListUsers_scanned World.conn w _ w hq rfl rfl
    (by
      intro cols hcols
      obtain ⟨u, -, rfl⟩ := List.mem_map.mp hcols
      rfl)]
  simp [List.map_map, Function.comp_def, World.scanUser_columns]

/-- The name of the record made from a stored row: the empty string for `NULL`. -/
theorem World.toDomainUser_Name (uuidString : uuid.UUID → String) (u : Row) :
    (toDomainUser uuidString (World.toUser u)).Name = u.name.getD "" := by
  unfold toDomainUser World.toUser
  cases hn : u.name <;> cases he : u.email <;> simp [World.ofColumn]

/-- The empty string is the least string. -/
theorem World.empty_le (x : String) : "" ≤ x := by
  rw [String.le_iff_toList_le]
  simp

/-- The order of `ORDER BY name` is total. -/
theorem World.nameLE_total (a b : Row) : World.nameLE a b = true ∨ World.nameLE b a = true := by
  unfold World.nameLE
  cases ha : a.name <;> cases hb : b.name <;> simp
  exact le_total _ _

/-- The order of `ORDER BY name` is transitive. -/
theorem World.nameLE_trans (a b c : Row) (hab : World.nameLE a b = true)
    (hbc : World.nameLE b c = true) : World.nameLE a c = true := by
  unfold World.nameLE at *
  cases ha : a.name <;> cases hb : b.name <;> cases hc : c.name <;>
    simp [ha, hb, hc] at hab hbc ⊢
  exact le_trans hab hbc

/-- Rows in the order of `ORDER BY name` have their record names in order. -/
theorem World.nameLE_getD (a b : Row) (hab : World.nameLE a b = true) :
    a.name.getD "" ≤ b.name.getD "" := by
  unfold World.nameLE at hab
  cases ha : a.name with
  | none => exact World.empty_le _
  | some x =>
    cases hb : b.name with
    | none => simp [ha, hb] at hab
    | some y =>
      simp only [ha, hb, decide_eq_true_eq] at hab
      exact hab

/-- The rows that the reference storage returns for `ListUsers` are sorted by name. -/
theorem World.sorted_users (users : List Row) :
    (users.insertionSort (fun a b => World.nameLE a b = true)).Sorted
      (fun a b => World.nameLE a b = true) := by
  haveI : IsTotal Row (fun a b => World.nameLE a b = true) := ⟨World.nameLE_total⟩
  haveI : IsTrans Row (fun a b => World.nameLE a b = true) := ⟨World.nameLE_trans⟩
  exact List.sorted_insertionSort _ users

/-- On the reference storage, the repository's `ListUsers` returns the records of the
rows sorted by name and leaves the world as it is. -/
theorem World.repository_ListUsers (w : World) :
    World.repository.ListUsers w =
      (((w.users.insertionSort (fun a b => World.nameLE a b = true)).map
          (fun u => toDomainUser World.uuidString (World.toUser u)), none), w) := by
  have hQ : World.repository.querier = db.New World.conn := rfl
  simp [sqlcUserRepository.ListUsers, hQ, World.querier_ListUsers, toDomainUserSlice,
    List.map_map, Function.comp_def]
  intro a _
  rfl

end helpers

/-- C15. The repository's `ListUsers` returns one record per row that the querier
returned, the i-th record being `toDomainUser` of the i-th row; `Queries.ListUsers`
returns the rows of the result set in its order; and on the reference storage, whose
`ORDER BY name` puts `NULL` first, the records are those of all stored rows, one for
each, with non-decreasing names, a `NULL` name read as the empty string. -/
theorem listUsers_ordered {σ : Type} (r : sqlcUserRepository σ) (s : σ)
    (log : List db.QuerierCall) :
    (∀ sqlcUsers s1, r.querier.ListUsers s = ((sqlcUsers, none), s1) →
      r.recording.ListUsers (s, log) =
        ((sqlcUsers.map (toDomainUser r.uuid.String), none),
          (s1, log ++ [db.QuerierCall.ListUsers]))
      ∧ (sqlcUsers.map (toDomainUser r.uuid.String)).length = sqlcUsers.length
      ∧ ∀ i : Nat, (sqlcUsers.map (toDomainUser r.uuid.String))[i]? =
          sqlcUsers[i]?.map (toDomainUser r.uuid.String))
    ∧ (∀ (conn : db.DBTX σ) (rows : sql.Rows) (s1 : σ),
      conn.QueryContext db.listUsers [] s = ((rows, none), s1) →
      rows.closeErr = none → rows.iterErr = none →
      (∀ cols ∈ rows.rows, (db.scanUser cols {}).2 = none) →
      (db.New conn).ListUsers s =
        ((rows.rows.map (fun cols => (db.scanUser cols {}).1), none), s1))
    ∧ (∀ w : World,
      World.repository.ListUsers w =
        (((w.users.insertionSort (fun a b => World.nameLE a b = true)).map
            (fun u => toDomainUser World.uuidString (World.toUser u)), none), w)
      ∧ (World.repository.ListUsers w).1.1.Perm
          (w.users.map (fun u => toDomainUser World.uuidString (World.toUser u)))
      ∧ (World.repository.ListUsers w).1.1.length = w.users.length
      ∧ ((World.repository.ListUsers w).1.1.map (fun u => u.Name)).Sorted (· ≤ ·)
      ∧ ∀ u : Row, (toDomainUser World.uuidString (World.toUser u)).Name = u.name.getD "") := by
  refine ⟨?_, ?_, ?_⟩
  · intro sqlcUsers s1 hq
    refine ⟨?_, by simp, fun i => by simp⟩
    simp [sqlcUserRepository.ListUsers, sqlcUserRepository.recording, UuidLib.withLog,
      db.Querier.recording, hq, toDomainUserSlice]
  · intro conn rows s1 hq hclose hiter hscan
    exact db.Queries.ListUsers_scanned conn s rows s1 hq hclose hiter hscan
  · intro w
    rw [World.repository_ListUsers]
    refine ⟨rfl, ?_, by simp, ?_, fun u => World.toDomainUser_Name _ u⟩
    · exact (List.perm_insertionSort _ w.users).map _
    · have hs := World.sorted_users w.users
      simp only [List.map_map]
      unfold List.Sorted at hs ⊢
      rw [List.pairwise_map]
      refine hs.imp ?_
      intro a b hab
      simp only [Function.comp_apply, World.toDomainUser_Name]
      exact World.nameLE_getD a b hab

/-- Witness of C15: the three users of the reference world `unsorted`, listed with the
nameless one first, then `alice`, then `bob`. -/
theorem listUsers_ordered_witness :
    (World.repository.ListUsers World.unsorted).1.1.map (fun u => (u.ID, u.Name)) =
      [("00000000-0000-0000-0000-000000000002", ""),
       ("00000000-0000-0000-0000-000000000003", "alice"),
       ("00000000-0000-0000-0000-000000000001", "bob")]
    ∧ (World.repository.ListUsers World.unsorted).1.1.length = 3 := by
  have h := ((listUsers_ordered World.repository World.unsorted []).2.2 World.unsorted).1
  have h1 : ("alice" : String) ≤ "bob" := by rw [String.le_iff_toList_le]; decide
  have h2 : ¬ ("bob" : String) ≤ "alice" := by rw [String.le_iff_toList_le]; decide
  have hsort : World.unsorted.users.insertionSort (fun a b => World.nameLE a b = true) =
      [{ id := ⟨2⟩, name := none, email := some "nobody@x.com",
         password := some (World.hashed 10 1 "q"), created_at := 2, updatedat := 2 },
       { id := ⟨3⟩, name := some "alice", email := some "alice@x.com",
         password := some (World.hashed 10 2 "r"), created_at := 3, updatedat := 3 },
       { id := ⟨1⟩, name := some "bob", email := some "bob@x.com",
         password := some (World.hashed 10 0 "p"), created_at := 1, updatedat := 1 }] := by
    simp [World.unsorted, List.insertionSort, List.orderedInsert, World.nameLE, h1, h2]
  rw [h, hsort]
  exact ⟨by decide, by decide⟩

/-- C16. `GetAllUsers` returns what the repository's `ListUsers` returns, after exactly
that one call; when the query yields no rows and no error, the result through the
repository is the empty sequence and no error, and so it is on the reference storage
with an empty table. -/
theorem getAllUsers_delegates {σ : Type} (uc : userInteractor σ) (s : σ)
    (log : List RepoCall) :
    uc.GetAllUsers s = uc.userRepo.ListUsers s
    ∧ uc.recording.GetAllUsers (s, log) =
      ((uc.userRepo.ListUsers s).1, ((uc.userRepo.ListUsers s).2, log ++ [RepoCall.ListUsers]))
    ∧ (∀ (r : sqlcUserRepository σ) (b : Bcrypt σ) (s1 : σ),
      r.querier.ListUsers s = (([], none), s1) →
      (NewUserInteractor r.toUserRepository b).GetAllUsers s = (([], none), s1)
      ∧ ((NewUserInteractor r.toUserRepository b).GetAllUsers s).1.1.length = 0)
    ∧ (∀ w : World, w.users = [] → World.interactor.GetAllUsers w = (([], none), w)) := by
  refine ⟨rfl, rfl, ?_, ?_⟩
  · intro r b s1 hq
    have h : (NewUserInteractor r.toUserRepository b).GetAllUsers s = (([], none), s1) := by
      simp [userInteractor.GetAllUsers, NewUserInteractor, sqlcUserRepository.toUserRepository,
        sqlcUserRepository.ListUsers, hq, toDomainUserSlice]
    exact ⟨h, by rw [h]; rfl⟩
  · intro w hw
    have hL : World.interactor.GetAllUsers w = World.repository.ListUsers w := rfl
    rw [hL, World.repository_ListUsers, hw]
    rfl

/-- Witness of C16: the empty reference world. -/
theorem getAllUsers_delegates_witness :
    World.interactor.GetAllUsers World.empty = (([], none), World.empty) :=
  (getAllUsers_delegates World.interactor World.empty []).2.2.2 World.empty rfl

section helpers

/-- On the reference storage, `CreateUser` with an id that no row has appends the row,
stamped with the storage clock, and reports no error. -/
theorem World.querier_CreateUser (w : World) (arg : db.CreateUserParams)
    (hfresh : ∀ u ∈ w.users, u.id ≠ arg.ID) :
    (db.New World.conn).CreateUser arg w =
      ((⟨1⟩, none),
        { w with
          users := w.users ++
            [{ id := arg.ID, name := World.toColumn arg.Name, email := World.toColumn arg.Email,
               password := World.toColumn arg.Password, created_at := w.clock,
               updatedat := w.clock }]
          clock := w.clock + 1 }) := by
  have hany : (w.users.any fun u => decide (u.id = arg.ID)) = false := by
    rw [List.any_eq_false]
    intro u hu
    simpa using hfresh u hu
  simp [db.New, db.Queries.CreateUser, World.conn, World.exec, hany]

/-- Looking up the id of a row appended to a table that did not have it finds the row. -/
theorem World.find_appended (users : List Row) (row : Row)
    (hfresh : ∀ u ∈ users, u.id ≠ row.id) :
    (users ++ [row]).find? (fun u => decide (u.id = row.id)) = some row := by
  rw [List.find?_append, World.find_none_of_absent users row.id hfresh]
  simp

/-- A record that the repository's `CreateUser` returns has an empty `Password`. -/
theorem sqlcUserRepository.CreateUser_Password {σ : Type} (r : sqlcUserRepository σ)
    (user : domain.User) (hashedPassword : String) (s : σ) (u : domain.User)
    (h : (r.CreateUser user hashedPassword s).1.1 = some u) : u.Password = "" := by
  unfold sqlcUserRepository.CreateUser at h
  split at h
  · simp at h
  · dsimp only at h
    split at h
    · simp at h
    · exact sqlcUserRepository.GetUserByID_Password _ _ _ u h

/-- A record that the repository's `UpdateUser` returns has an empty `Password`. -/
theorem sqlcUserRepository.UpdateUser_Password {σ : Type} (r : sqlcUserRepository σ)
    (id : String) (user : domain.User) (hashedPassword : Option String) (s : σ)
    (u : domain.User) (h : (r.UpdateUser id user hashedPassword s).1.1 = some u) :
    u.Password = "" := by
  unfold sqlcUserRepository.UpdateUser at h
  split at h
  · simp at h
  · split at h
    · split at h <;> simp at h
    · dsimp only at h
      split at h
      · simp at h
      · exact sqlcUserRepository.GetUserByID_Password _ _ _ u h

/-- Every record that the repository's `ListUsers` returns has an empty `Password`. -/
theorem sqlcUserRepository.ListUsers_Password {σ : Type} (r : sqlcUserRepository σ) (s : σ)
    (u : domain.User) (h : u ∈ (r.ListUsers s).1.1) : u.Password = "" := by
  unfold sqlcUserRepository.ListUsers at h
  split at h
  · simp at h
  · simp only [toDomainUserSlice, List.mem_map] at h
    obtain ⟨row, -, rfl⟩ := h
    exact toDomainUser_Password _ _

/-- The record made from a row does not depend on the row's password. -/
theorem toDomainUser_Password_irrelevant (uuidString : uuid.UUID → String) (row : db.User)
    (p : sql.NullString) :
    toDomainUser uuidString { row with Password := p } = toDomainUser uuidString row := rfl

/-- Reading back a name or email stored as `NullString{s, s != ""}` gives `s`. -/
theorem toDomainUser_roundtrip (uuidString : uuid.UUID → String) (row : db.User)
    (s t : String) :
    (toDomainUser uuidString
        { row with Name := ⟨s, decide (s ≠ "")⟩, Email := ⟨t, decide (t ≠ "")⟩ }).Name = s
    ∧ (toDomainUser uuidString
        { row with Name := ⟨s, decide (s ≠ "")⟩, Email := ⟨t, decide (t ≠ "")⟩ }).Email = t := by
  unfold toDomainUser
  by_cases hs : s = "" <;> by_cases ht : t = "" <;> simp [hs, ht]

end helpers

/-- C17. Over the reference storage, with any uuid and bcrypt packages: for non-empty
name, email and password whose hashing succeeds, and a generated id that no row has and
that `uuid.Parse` reads back from its string, `CreateNewUser` returns the record with
that id, the given name and email and the creation time that storage assigned, and
`FindUserByID` with the returned record's id then returns the same record.  Reading back
a name or email stored as `NullString{s, s != ""}` gives `s`, for every string `s`. -/
theorem create_then_find (r : sqlcUserRepository World) (b : Bcrypt World)
    (name email plainPassword : String) (w : World) (hash : String) (w1 : World)
    (userID : uuid.UUID) (w2 : World)
    (hq : r.querier = db.New World.conn)
    (hname : name ≠ "") (hemail : email ≠ "") (hpassword : plainPassword ≠ "")
    (hgen : b.GenerateFromPassword plainPassword bcrypt.DefaultCost w = ((hash, none), w1))
    (hnew : r.uuid.NewRandom w1 = ((userID, none), w2))
    (hround : r.uuid.Parse (r.uuid.String userID) = (userID, none))
    (hstring : r.uuid.String userID ≠ "")
    (hfresh : ∀ u ∈ w2.users, u.id ≠ userID) :
    (NewUserInteractor r.toUserRepository b).CreateNewUser name email plainPassword w =
      ((some { ID := r.uuid.String userID, Name := name, Email := email,
               CreatedAt := w2.clock, UpdatedAt := w2.clock }, none),
        { w2 with
          users := w2.users ++
            [{ id := userID, name := some name, email := some email,
               password := if hash ≠ "" then some hash else none,
               created_at := w2.clock, updatedat := w2.clock }]
          clock := w2.clock + 1 })
    ∧ (NewUserInteractor r.toUserRepository b).FindUserByID (r.uuid.String userID)
        { w2 with
          users := w2.users ++
            [{ id := userID, name := some name, email := some email,
               password := if hash ≠ "" then some hash else none,
               created_at := w2.clock, updatedat := w2.clock }]
          clock := w2.clock + 1 } =
      ((some { ID := r.uuid.String userID, Name := name, Email := email,
               CreatedAt := w2.clock, UpdatedAt := w2.clock }, none),
        { w2 with
          users := w2.users ++
            [{ id := userID, name := some name, email := some email,
               password := if hash ≠ "" then some hash else none,
               created_at := w2.clock, updatedat := w2.clock }]
          clock := w2.clock + 1 })
    ∧ ∀ (uuidString : uuid.UUID → String) (row : db.User) (s t : String),
        (toDomainUser uuidString
            { row with Name := ⟨s, decide (s ≠ "")⟩, Email := ⟨t, decide (t ≠ "")⟩ }).Name = s
        ∧ (toDomainUser uuidString
            { row with Name := ⟨s, decide (s ≠ "")⟩, Email := ⟨t, decide (t ≠ "")⟩ }).Email
          = t := by
  have hread : r.GetUserByID (r.uuid.String userID)
        { w2 with
          users := w2.users ++
            [{ id := userID, name := some name, email := some email,
               password := if hash ≠ "" then some hash else none,
               created_at := w2.clock, updatedat := w2.clock }]
          clock := w2.clock + 1 } =
      ((some { ID := r.uuid.String userID, Name := name, Email := email,
               CreatedAt := w2.clock, UpdatedAt := w2.clock }, none),
        { w2 with
          users := w2.users ++
            [{ id := userID, name := some name, email := some email,
               password := if hash ≠ "" then some hash else none,
               created_at := w2.clock, updatedat := w2.clock }]
          clock := w2.clock + 1 }) := by
    have hfind : List.find? (fun u => decide (u.id = userID))
        (w2.users ++
          [{ id := userID, name := some name, email := some email,
             password := if hash ≠ "" then some hash else none,
             created_at := w2.clock, updatedat := w2.clock }]) =
        some { id := userID, name := some name, email := some email,
               password := if hash ≠ "" then some hash else none,
               created_at := w2.clock, updatedat := w2.clock } :=
      World.find_appended w2.users
        { id := userID, name := some name, email := some email,
          password := if hash ≠ "" then some hash else none,
          created_at := w2.clock, updatedat := w2.clock } hfresh
    have hget := World.querier_GetUserByID_found
      { w2 with
        users := w2.users ++
          [{ id := userID, name := some name, email := some email,
             password := if hash ≠ "" then some hash else none,
             created_at := w2.clock, updatedat := w2.clock }]
        clock := w2.clock + 1 } userID _ hfind
    unfold sqlcUserRepository.GetUserByID
    rw [hround, hq]
    dsimp only
    rw [hget]
    simp [toDomainUser, World.ofColumn]
  refine ⟨?_, ?_, fun f row s t => toDomainUser_roundtrip f row s t⟩
  · unfold userInteractor.CreateNewUser
    rw [if_neg (by simp [hname, hemail, hpassword])]
    simp only [NewUserInteractor, sqlcUserRepository.toUserRepository, hgen]
    unfold sqlcUserRepository.CreateUser
    simp only [hnew, hq]
    rw [World.querier_CreateUser w2 _ hfresh]
    simp only [World.toColumn, hname, hemail, ne_eq, not_false_eq_true, decide_True,
      if_true, decide_eq_true_eq]
    exact hread
  · unfold userInteractor.FindUserByID
    rw [if_neg hstring]
    exact hread

/-- Witness of C17: creating `"n"`, `"e@x.com"`, `"p"` on the empty reference world and
fetching the returned id. -/
theorem create_then_find_witness :
    World.interactor.CreateNewUser "n" "e@x.com" "p" World.empty =
      ((some { ID := "00000000-0000-0000-0000-000000000001", Name := "n", Email := "e@x.com",
               CreatedAt := 1, UpdatedAt := 1 }, none), World.sample)
    ∧ World.interactor.FindUserByID "00000000-0000-0000-0000-000000000001" World.sample =
      ((some { ID := "00000000-0000-0000-0000-000000000001", Name := "n", Email := "e@x.com",
               CreatedAt := 1, UpdatedAt := 1 }, none), World.sample) :=
  ⟨((create_then_find World.repository World.bcryptLib "n" "e@x.com" "p" World.empty
      (World.hashed 10 0 "p") { World.empty with entropy := 1 } ⟨1⟩
      { World.empty with entropy := 2 } rfl (by decide) (by decide) (by decide) (by decide)
      (by decide) (by decide) (by decide) (by decide)).1).trans (by decide),
    ((create_then_find World.repository World.bcryptLib "n" "e@x.com" "p" World.empty
      (World.hashed 10 0 "p") { World.empty with entropy := 1 } ⟨1⟩
      { World.empty with entropy := 2 } rfl (by decide) (by decide) (by decide) (by decide)
      (by decide) (by decide) (by decide) (by decide)).2.1).trans (by decide)⟩

/-- C18. `toDomainUser` gives a record whose `Password` is empty, so rows that differ
only in the stored password give equal records; and every record that `GetUserByID`,
`ListUsers`, `CreateUser` and `UpdateUser` of the repository return has an empty
`Password`. -/
theorem password_not_exposed {σ : Type} (r : sqlcUserRepository σ) :
    (∀ (uuidString : uuid.UUID → String) (row : db.User),
      (toDomainUser uuidString row).Password = "")
    ∧ (∀ (uuidString : uuid.UUID → String) (row : db.User) (p : sql.NullString),
      toDomainUser uuidString { row with Password := p } = toDomainUser uuidString row)
    ∧ (∀ (id : String) (s : σ) (u : domain.User),
      (r.GetUserByID id s).1.1 = some u → u.Password = "")
    ∧ (∀ (s : σ) (u : domain.User), u ∈ (r.ListUsers s).1.1 → u.Password = "")
    ∧ (∀ (user : domain.User) (hashedPassword : String) (s : σ) (u : domain.User),
      (r.CreateUser user hashedPassword s).1.1 = some u → u.Password = "")
    ∧ (∀ (id : String) (user : domain.User) (hashedPassword : Option String) (s : σ)
        (u : domain.User),
      (r.UpdateUser id user hashedPassword s).1.1 = some u → u.Password = "") :=
  ⟨toDomainUser_Password, toDomainUser_Password_irrelevant,
    fun id s u h => sqlcUserRepository.GetUserByID_Password r id s u h,
    fun s u h => sqlcUserRepository.ListUsers_Password r s u h,
    fun user hp s u h => sqlcUserRepository.CreateUser_Password r user hp s u h,
    fun id user hp s u h => sqlcUserRepository.UpdateUser_Password r id user hp s u h⟩

/-- Witness of C18 on the reference world: the record read for the stored row has no
password, and is the record of the same row with another stored password. -/
theorem password_not_exposed_witness :
    (World.repository.GetUserByID "00000000-0000-0000-0000-000000000001" World.sample).1.1 =
      some { ID := "00000000-0000-0000-0000-000000000001", Name := "n", Email := "e@x.com",
             Password := "", CreatedAt := 1, UpdatedAt := 1 }
    ∧ toDomainUser World.uuidString
        { ID := ⟨1⟩, Name := ⟨"n", true⟩, Email := ⟨"e@x.com", true⟩,
          Password := ⟨"other", true⟩, CreatedAt := 1, Updatedat := 1 } =
      toDomainUser World.uuidString
        { ID := ⟨1⟩, Name := ⟨"n", true⟩, Email := ⟨"e@x.com", true⟩,
          Password := ⟨World.hashed 10 0 "p", true⟩, CreatedAt := 1, Updatedat := 1 }
    ∧ ({ ID := "00000000-0000-0000-0000-000000000001", Name := "n", Email := "e@x.com",
         Password := "", CreatedAt := 1, UpdatedAt := 1 } : domain.User).Password = "" :=
  ⟨by decide,
    (password_not_exposed World.repository).2.1 World.uuidString
      { ID := ⟨1⟩, Name := ⟨"n", true⟩, Email := ⟨"e@x.com", true⟩,
        Password := ⟨World.hashed 10 0 "p", true⟩, CreatedAt := 1, Updatedat := 1 }
      ⟨"other", true⟩,
    (password_not_exposed World.repository).2.2.1 "00000000-0000-0000-0000-000000000001"
      World.sample _ (by decide)⟩

/-- C19. When `uuid.NewRandom` gives `userID`, the repository's `CreateUser` first sends
one `CreateUser` statement whose id is `userID`, whose name and email are those of the
record and whose password is the `hashedPassword` argument (each as a `NullString`, valid
when non-empty); the record's `ID`, `Password` and timestamps play no part, so records
with the same name and email give the same run; and when the statement reports no error
the result is the re-read of `userID.String()`, which, when `uuid.Parse` reads it back,
is the read of the row with id `userID`. -/
theorem createUser_assigns_id {σ : Type} (r : sqlcUserRepository σ) (user : domain.User)
    (hashedPassword : String) (s : σ) (log : List db.QuerierCall) (userID : uuid.UUID)
    (s1 : σ) (hnew : r.uuid.NewRandom s = ((userID, none), s1)) :
    r.recording.CreateUser user hashedPassword (s, log) =
      (match r.querier.CreateUser
          { ID := userID
            Name := ⟨user.Name, decide (user.Name ≠ "")⟩
            Email := ⟨user.Email, decide (user.Email ≠ "")⟩
            Password := ⟨hashedPassword, decide (hashedPassword ≠ "")⟩ } s1 with
        | ((_, some err), s2) =>
          ((none, some err),
            (s2, log ++ [db.QuerierCall.CreateUser
              { ID := userID
                Name := ⟨user.Name, decide (user.Name ≠ "")⟩
                Email := ⟨user.Email, decide (user.Email ≠ "")⟩
                Password := ⟨hashedPassword, decide (hashedPassword ≠ "")⟩ }]))
        | ((_, none), s2) =>
          r.recording.GetUserByID (r.uuid.String userID)
            (s2, log ++ [db.QuerierCall.CreateUser
              { ID := userID
                Name := ⟨user.Name, decide (user.Name ≠ "")⟩
                Email := ⟨user.Email, decide (user.Email ≠ "")⟩
                Password := ⟨hashedPassword, decide (hashedPassword ≠ "")⟩ }]))
    ∧ (∀ user2 : domain.User, user2.Name = user.Name → user2.Email = user.Email →
      r.recording.CreateUser user2 hashedPassword (s, log) =
        r.recording.CreateUser user hashedPassword (s, log))
    ∧ (r.uuid.Parse (r.uuid.String userID) = (userID, none) →
      ∀ res s2 row s3,
        r.querier.CreateUser
          { ID := userID
            Name := ⟨user.Name, decide (user.Name ≠ "")⟩
            Email := ⟨user.Email, decide (user.Email ≠ "")⟩
            Password := ⟨hashedPassword, decide (hashedPassword ≠ "")⟩ } s1 =
          ((res, none), s2) →
        r.querier.GetUserByID userID s2 = ((row, none), s3) →
        r.recording.CreateUser user hashedPassword (s, log) =
          ((some (toDomainUser r.uuid.String row), none),
            (s3, log ++ [db.QuerierCall.CreateUser
              { ID := userID
                Name := ⟨user.Name, decide (user.Name ≠ "")⟩
                Email := ⟨user.Email, decide (user.Email ≠ "")⟩
                Password := ⟨hashedPassword, decide (hashedPassword ≠ "")⟩ },
              db.QuerierCall.GetUserByID userID]))) := by
  have hrun : r.recording.CreateUser user hashedPassword (s, log) =
      (match r.querier.CreateUser
          { ID := userID
            Name := ⟨user.Name, decide (user.Name ≠ "")⟩
            Email := ⟨user.Email, decide (user.Email ≠ "")⟩
            Password := ⟨hashedPassword, decide (hashedPassword ≠ "")⟩ } s1 with
        | ((_, some err), s2) =>
          ((none, some err),
            (s2, log ++ [db.QuerierCall.CreateUser
              { ID := userID
                Name := ⟨user.Name, decide (user.Name ≠ "")⟩
                Email := ⟨user.Email, decide (user.Email ≠ "")⟩
                Password := ⟨hashedPassword, decide (hashedPassword ≠ "")⟩ }]))
        | ((_, none), s2) =>
          r.recording.GetUserByID (r.uuid.String userID)
            (s2, log ++ [db.QuerierCall.CreateUser
              { ID := userID
                Name := ⟨user.Name, decide (user.Name ≠ "")⟩
                Email := ⟨user.Email, decide (user.Email ≠ "")⟩
                Password := ⟨hashedPassword, decide (hashedPassword ≠ "")⟩ }])) := by
    unfold sqlcUserRepository.CreateUser
    simp only [sqlcUserRepository.recording, UuidLib.withLog, db.Querier.recording, hnew]
    generalize r.querier.CreateUser _ s1 = x
    obtain ⟨⟨res, e⟩, s2⟩ := x
    cases e <;> rfl
  refine ⟨hrun, ?_, ?_⟩
  · intro user2 hn he
    unfold sqlcUserRepository.CreateUser
    rw [hn, he]
  · intro hround res s2 row s3 hcreate hget
    rw [hrun, hcreate]
    simp [sqlcUserRepository.GetUserByID, sqlcUserRepository.recording, UuidLib.withLog,
      db.Querier.recording, hround, hget]

/-- Witness of C19 on the reference world: a record that carries an id, a password and
timestamps chosen by the caller. -/
theorem createUser_assigns_id_witness :
    World.repository.recording.CreateUser
        { ID := "chosen-by-caller", Name := "n", Email := "e@x.com", Password := "plain",
          CreatedAt := 7, UpdatedAt := 9 }
        (World.hashed 10 0 "p") ({ World.empty with entropy := 1 }, []) =
      ((some { ID := "00000000-0000-0000-0000-000000000001", Name := "n", Email := "e@x.com",
               CreatedAt := 1, UpdatedAt := 1 }, none),
        (World.sample,
          [] ++ [db.QuerierCall.CreateUser
            { ID := ⟨1⟩, Name := ⟨"n", true⟩, Email := ⟨"e@x.com", true⟩,
              Password := ⟨World.hashed 10 0 "p", true⟩ },
            db.QuerierCall.GetUserByID ⟨1⟩])) :=
  (createUser_assigns_id World.repository
    { ID := "chosen-by-caller", Name := "n", Email := "e@x.com", Password := "plain",
      CreatedAt := 7, UpdatedAt := 9 }
    (World.hashed 10 0 "p") { World.empty with entropy := 1 } [] ⟨1⟩
    { World.empty with entropy := 2 } (by decide)).2.2 (by decide) ⟨1⟩ World.sample
    { ID := ⟨1⟩, Name := ⟨"n", true⟩, Email := ⟨"e@x.com", true⟩,
      Password := ⟨World.hashed 10 0 "p", true⟩, CreatedAt := 1, Updatedat := 1 }
    World.sample (by decide) (by decide)

section helpers

/-- The repository's `UpdateUser`, on an id that parses and whose current row the
querier returns: the read, then one `UpdateUser` statement with the parameters built
from the current row, then the re-read when the statement reports no error. -/
theorem sqlcUserRepository.recording_UpdateUser_found {σ : Type} (r : sqlcUserRepository σ)
    (id : String) (user : domain.User) (hashedPassword : Option String) (s : σ)
    (log : List db.QuerierCall) (userID : uuid.UUID) (currentUser : db.User) (s1 : σ)
    (hparse : r.uuid.Parse id = (userID, none))
    (hcur : r.querier.GetUserByID userID s = ((currentUser, none), s1)) :
    r.recording.UpdateUser id user hashedPassword (s, log) =
      (match r.querier.UpdateUser
          (sqlcUserRepository.updateParams userID currentUser user hashedPassword) s1 with
        | ((_, some err), s2) =>
          ((none, some err),
            (s2, log ++ [db.QuerierCall.GetUserByID userID,
              db.QuerierCall.UpdateUser
                (sqlcUserRepository.updateParams userID currentUser user hashedPassword)]))
        | ((_, none), s2) =>
          r.recording.GetUserByID id
            (s2, log ++ [db.QuerierCall.GetUserByID userID,
              db.QuerierCall.UpdateUser
                (sqlcUserRepository.updateParams userID currentUser user hashedPassword)])) := by
  unfold sqlcUserRepository.UpdateUser
  simp only [sqlcUserRepository.recording, UuidLib.withLog, db.Querier.recording, hparse, hcur]
  generalize r.querier.UpdateUser _ s1 = x
  obtain ⟨⟨res, e⟩, s2⟩ := x
  cases e <;> simp

/-- On the reference storage, the repository's `UpdateUser` on the id of a stored row
writes the parameters built from that row and re-reads the id. -/
theorem World.repository_UpdateUser_found (w : World) (id : String) (user : domain.User)
    (hashedPassword : Option String) (userID : uuid.UUID) (cur : Row)
    (hparse : World.uuidParse id = (userID, none))
    (hfind : w.users.find? (fun u => decide (u.id = userID)) = some cur) :
    World.repository.UpdateUser id user hashedPassword w =
      World.repository.GetUserByID id
        { w with
          users := w.users.map (fun u =>
            if u.id = userID then
              { u with
                name := World.toColumn (sqlcUserRepository.updateParams userID
                  (World.toUser cur) user hashedPassword).Name
                email := World.toColumn (sqlcUserRepository.updateParams userID
                  (World.toUser cur) user hashedPassword).Email
                password := World.toColumn (sqlcUserRepository.updateParams userID
                  (World.toUser cur) user hashedPassword).Password
                updatedat := w.clock }
            else u)
          clock := w.clock + 1 } := by
  have hP : World.repository.uuid.Parse id = (userID, none) := hparse
  have hQ : World.repository.querier = db.New World.conn := rfl
  have hID : (sqlcUserRepository.updateParams userID (World.toUser cur) user
      hashedPassword).ID = userID := by
    unfold sqlcUserRepository.updateParams
    by_cases hn : user.Name = "" <;> by_cases he : user.Email = "" <;>
      cases hashedPassword <;> simp [hn, he]
  unfold sqlcUserRepository.UpdateUser
  simp only [hP, hQ, World.querier_GetUserByID_found w userID cur hfind,
    World.querier_UpdateUser]
  have hrow :
      ({ ID := cur.id, Name := World.ofColumn cur.name, Email := World.ofColumn cur.email,
         Password := World.ofColumn cur.password, CreatedAt := cur.created_at,
         Updatedat := cur.updatedat } : db.User) = World.toUser cur := rfl
  rw [hrow, hID]

end helpers

/-- C20. For a non-empty id, `UpdateExistingUser` with a name that is present and empty
and no email or password does not stop at "no update data provided": it calls the
repository's `UpdateUser` once, with the all-empty record and no hash, and returns its
result.  For an existing row the repository then sends an `UpdateUser` statement whose
name, email and password are the row's current ones, and on the reference storage the
row keeps its name, email and password. -/
theorem updateExistingUser_empty_name {σ : Type} (uc : userInteractor σ) (id : String)
    (s : σ) (log : List RepoCall) (hid : id ≠ "") :
    uc.recording.UpdateExistingUser id (some "") none none (s, log) =
      ((uc.userRepo.UpdateUser id {} none s).1,
        ((uc.userRepo.UpdateUser id {} none s).2, log ++ [RepoCall.UpdateUser id {} none]))
    ∧ (∀ (r : sqlcUserRepository σ) (qlog : List db.QuerierCall) (userID : uuid.UUID)
        (currentUser : db.User) (s1 : σ),
      r.uuid.Parse id = (userID, none) →
      r.querier.GetUserByID userID s = ((currentUser, none), s1) →
      r.recording.UpdateUser id {} none (s, qlog) =
        (match r.querier.UpdateUser
            { ID := userID, Name := currentUser.Name, Email := currentUser.Email,
              Password := currentUser.Password } s1 with
          | ((_, some err), s2) =>
            ((none, some err),
              (s2, qlog ++ [db.QuerierCall.GetUserByID userID,
                db.QuerierCall.UpdateUser
                  { ID := userID, Name := currentUser.Name, Email := currentUser.Email,
                    Password := currentUser.Password }]))
          | ((_, none), s2) =>
            r.recording.GetUserByID id
              (s2, qlog ++ [db.QuerierCall.GetUserByID userID,
                db.QuerierCall.UpdateUser
                  { ID := userID, Name := currentUser.Name, Email := currentUser.Email,
                    Password := currentUser.Password }])))
    ∧ (∀ (w : World) (userID : uuid.UUID) (cur : Row),
      World.uuidParse id = (userID, none) →
      w.users.find? (fun u => decide (u.id = userID)) = some cur →
      World.interactor.UpdateExistingUser id (some "") none none w =
        World.repository.GetUserByID id
          { w with
            users := w.users.map (fun u =>
              if u.id = userID then
                { u with name := cur.name, email := cur.email, password := cur.password,
                         updatedat := w.clock }
              else u)
            clock := w.clock + 1 }) := by
  have hparams : ∀ (userID : uuid.UUID) (currentUser : db.User),
      sqlcUserRepository.updateParams userID currentUser {} none =
        { ID := userID, Name := currentUser.Name, Email := currentUser.Email,
          Password := currentUser.Password } := fun _ _ => rfl
  refine ⟨?_, ?_, ?_⟩
  · unfold userInteractor.UpdateExistingUser
    rw [if_neg hid]
    rfl
  · intro r qlog userID currentUser s1 hparse hcur
    rw [sqlcUserRepository.recording_UpdateUser_found r id {} none s qlog userID currentUser s1
      hparse hcur, hparams]
  · intro w userID cur hparse hfind
    have hrun : World.interactor.UpdateExistingUser id (some "") none none w =
        World.repository.UpdateUser id {} none w := by
      unfold userInteractor.UpdateExistingUser
      rw [if_neg hid]
      rfl
    rw [hrun, World.repository_UpdateUser_found w id {} none userID cur hparse hfind, hparams]
    simp only [World.toUser, World.toColumn_ofColumn]

/-- Witness of C20: an empty name for the stored row of the reference world; the row
keeps its name, email and password. -/
theorem updateExistingUser_empty_name_witness :
    World.interactor.recording.UpdateExistingUser "00000000-0000-0000-0000-000000000001"
        (some "") none none (World.sample, []) =
      ((some { ID := "00000000-0000-0000-0000-000000000001", Name := "n", Email := "e@x.com",
               CreatedAt := 1, UpdatedAt := 2 }, none),
        ({ users :=
            [{ id := ⟨1⟩, name := some "n", email := some "e@x.com",
               password := some (World.hashed 10 0 "p"), created_at := 1, updatedat := 2 }]
           clock := 3
           entropy := 2 },
          [RepoCall.UpdateUser "00000000-0000-0000-0000-000000000001" {} none])) :=
  ((updateExistingUser_empty_name World.interactor "00000000-0000-0000-0000-000000000001"
    World.sample [] (by decide)).1).trans (by decide)
